import Mathlib

/-!
Verification of the Player Analytics & Recommendation Engine
(src/models/data_processor.py and src/models/recommender.py).

Conventions of the embedding:
* pandas cells of numeric columns are rationals; a cell that is missing,
  NaN or infinite is modelled as `none : Option ℚ` (float overflow aside,
  the only non-finite values these modules produce come from division by
  zero, which `fdiv` models).
* DataFrames are lists of typed rows, in row order; the positional index
  (a RangeIndex) is the list position.
* sklearn's StandardScaler divides by the per-column standard deviation
  (with zero replaced by 1).  The standard deviation is an irrational
  square root in general, so fitted scales enter as an explicit list of
  rationals constrained by `ScaleSpec` (scale² = variance, or 1 for a
  constant column); all other quantities are computed.
* KMeans is an external library call whose labels no claim inspects; the
  fit is modelled by a labelling function parameter `km` applied to the
  standardized matrix and `min 8 n`, matching the call site.
-/

namespace FootballScoutPro

/-! ### Data model of the Normalizer (process_players_data, lines 44-98) -/

/-- The nested player demographic block of a raw API entry. -/
structure PlayerInfo where
  id : Option Int
  name : Option String
  firstname : Option String
  lastname : Option String
  age : Option ℚ
  nationality : Option String
  height : Option String
  weight : Option String
  position : Option String

/-- One statistics block of a raw API entry (one team/competition stint). -/
structure StatBlock where
  team_id : Option Int
  team_name : Option String
  league_id : Option Int
  league_name : Option String
  appearances : Option ℚ
  minutes : Option ℚ
  rating : Option ℚ
  shots_total : Option ℚ
  shots_on : Option ℚ
  goals_total : Option ℚ
  goals_assists : Option ℚ
  passes_total : Option ℚ
  passes_accuracy : Option ℚ
  tackles_total : Option ℚ
  tackles_blocks : Option ℚ
  tackles_interceptions : Option ℚ
  duels_total : Option ℚ
  duels_won : Option ℚ

/-- One raw API player entry: demographics plus a list of statistics blocks. -/
structure RawEntry where
  player : PlayerInfo
  statistics : List StatBlock

/-- The flat row appended for each (player, statistics block) pair
(data_processor.py lines 67-95), before missing values are handled. -/
structure PlayerRecordRaw where
  player_id : Option Int
  name : Option String
  firstname : Option String
  lastname : Option String
  age : Option ℚ
  nationality : Option String
  height : Option String
  weight : Option String
  position : Option String
  team_id : Option Int
  team_name : Option String
  league_id : Option Int
  league_name : Option String
  appearances : Option ℚ
  minutes_played : Option ℚ
  rating : Option ℚ
  shots_total : Option ℚ
  shots_on_target : Option ℚ
  goals_total : Option ℚ
  assists : Option ℚ
  passes_total : Option ℚ
  passes_accuracy : Option ℚ
  tackles_total : Option ℚ
  tackles_blocks : Option ℚ
  tackles_interceptions : Option ℚ
  duels_total : Option ℚ
  duels_won : Option ℚ

/-- A clean flat row: after `handle_missing_values` every numeric cell is a
finite rational and every string cell a string (lines 119-127). -/
structure PlayerRecord where
  player_id : Int
  name : String
  firstname : String
  lastname : String
  age : ℚ
  nationality : String
  height : String
  weight : String
  position : String
  team_id : Int
  team_name : String
  league_id : Int
  league_name : String
  appearances : ℚ
  minutes_played : ℚ
  rating : ℚ
  shots_total : ℚ
  shots_on_target : ℚ
  goals_total : ℚ
  assists : ℚ
  passes_total : ℚ
  passes_accuracy : ℚ
  tackles_total : ℚ
  tackles_blocks : ℚ
  tackles_interceptions : ℚ
  duels_total : ℚ
  duels_won : ℚ

/-- The dictionary literal of lines 67-95: flattening one (player, stat) pair. -/
def flatRecord (p : PlayerInfo) (s : StatBlock) : PlayerRecordRaw where
  player_id := p.id
  name := p.name
  firstname := p.firstname
  lastname := p.lastname
  age := p.age
  nationality := p.nationality
  height := p.height
  weight := p.weight
  position := p.position
  team_id := s.team_id
  team_name := s.team_name
  league_id := s.league_id
  league_name := s.league_name
  appearances := s.appearances
  minutes_played := s.minutes
  rating := s.rating
  shots_total := s.shots_total
  shots_on_target := s.shots_on
  goals_total := s.goals_total
  assists := s.goals_assists
  passes_total := s.passes_total
  passes_accuracy := s.passes_accuracy
  tackles_total := s.tackles_total
  tackles_blocks := s.tackles_blocks
  tackles_interceptions := s.tackles_interceptions
  duels_total := s.duels_total
  duels_won := s.duels_won

/-- Cell-level content of `handle_missing_values` (lines 119-127): numeric
cells are filled with 0, string cells with the empty string. -/
def fillRecord (r : PlayerRecordRaw) : PlayerRecord where
  player_id := r.player_id.getD 0
  name := r.name.getD ""
  firstname := r.firstname.getD ""
  lastname := r.lastname.getD ""
  age := r.age.getD 0
  nationality := r.nationality.getD ""
  height := r.height.getD ""
  weight := r.weight.getD ""
  position := r.position.getD ""
  team_id := r.team_id.getD 0
  team_name := r.team_name.getD ""
  league_id := r.league_id.getD 0
  league_name := r.league_name.getD ""
  appearances := r.appearances.getD 0
  minutes_played := r.minutes_played.getD 0
  rating := r.rating.getD 0
  shots_total := r.shots_total.getD 0
  shots_on_target := r.shots_on_target.getD 0
  goals_total := r.goals_total.getD 0
  assists := r.assists.getD 0
  passes_total := r.passes_total.getD 0
  passes_accuracy := r.passes_accuracy.getD 0
  tackles_total := r.tackles_total.getD 0
  tackles_blocks := r.tackles_blocks.getD 0
  tackles_interceptions := r.tackles_interceptions.getD 0
  duels_total := r.duels_total.getD 0
  duels_won := r.duels_won.getD 0

/-- Errors raised by process_players_data. -/
inductive ProcessError where
  | emptyInput
deriving DecidableEq

/-- The nested loop of lines 53-95: for each entry, append one flat row per
statistics block, in input order. -/
def buildRows : List RawEntry → List PlayerRecordRaw
  | [] => []
  | e :: es => e.statistics.map (flatRecord e.player) ++ buildRows es

/-- process_players_data (lines 44-104): reject an empty entry list
("No player data found in the API response"), otherwise flatten all
(player, statistics block) pairs and handle missing values. -/
def process_players_data (response : List RawEntry) : Except ProcessError (List PlayerRecord) :=
  if response.isEmpty then .error .emptyInput
  else .ok ((buildRows response).map fillRecord)

/-! ### Metric Calculator (calculate_player_metrics, lines 129-176) -/

/-- Float division as it behaves in the pandas column division of line 149:
a zero denominator produces inf, -inf or NaN, all modelled as `none`. -/
def fdiv (a b : ℚ) : Option ℚ := if b = 0 then none else some (a / b)

/-- A row of the enriched table: the clean flat row plus the four derived
metric columns, kept as cells (`none` = NaN/inf) until cleaned. -/
structure EnrichedRecord where
  base : PlayerRecord
  minutes_per_appearance : Option ℚ
  pass_completion_rate : Option ℚ
  shot_conversion_rate : Option ℚ
  duels_success_rate : Option ℚ

/-- The metric formulas of lines 148-166, before the cleanup of lines
168-170.  np.where evaluates the guard first, so a zero denominator
selects the 0 branch for the two rate columns; the plain division of
line 149 can produce a non-finite cell. -/
def rawMetrics (r : PlayerRecord) : EnrichedRecord where
  base := r
  minutes_per_appearance := fdiv r.minutes_played r.appearances
  pass_completion_rate := some r.passes_accuracy
  shot_conversion_rate :=
    some (if 0 < r.shots_total then r.goals_total / r.shots_total * 100 else 0)
  duels_success_rate :=
    some (if 0 < r.duels_total then r.duels_won / r.duels_total * 100 else 0)

/-- Lines 168-170: replace ±inf with NaN, then fill numeric NaN with 0. -/
def cleanMetrics (e : EnrichedRecord) : EnrichedRecord where
  base := e.base
  minutes_per_appearance := some (e.minutes_per_appearance.getD 0)
  pass_completion_rate := some (e.pass_completion_rate.getD 0)
  shot_conversion_rate := some (e.shot_conversion_rate.getD 0)
  duels_success_rate := some (e.duels_success_rate.getD 0)

/-- calculate_player_metrics on one row of the table. -/
def calculate_player_metrics (r : PlayerRecord) : EnrichedRecord :=
  cleanMetrics (rawMetrics r)

/-! ### Recommender data model (recommender.py)

The recommender receives the processed DataFrame.  A row carries the
player_id column, the position column and the numeric cells aligned with
the table's numeric column names.  The cluster column written by
train_models is kept in a separate field of the table; it is never one of
the candidate feature columns and never the rating column, so no claim
under verification can observe the difference. -/

/-- One row of the recommender's players_df. -/
structure Row where
  pid : Int
  pos : String
  vals : List ℚ
deriving DecidableEq

/-- The players_df: numeric column names, rows (positionally indexed), and
the cluster column (absent before the first successful fit). -/
structure Table where
  numCols : List String
  rows : List Row
  clusters : Option (List Int)
deriving DecidableEq

/-- Value of the numeric column named c in row r (0 if the name is absent;
callers guard on presence as the source does). -/
def colVal (t : Table) (r : Row) (c : String) : ℚ :=
  match t.numCols.findIdx? (fun n => n == c) with
  | some j => r.vals.getD j 0
  | none => 0

/-- The fixed 14-name candidate feature schema (lines 74-80). -/
def candidateFeatures : List String :=
  ["age", "minutes_played", "rating",
   "shots_total", "shots_on_target", "goals_total", "assists",
   "passes_total", "passes_accuracy", "tackles_total",
   "tackles_blocks", "tackles_interceptions",
   "duels_total", "duels_won"]

/-- existing_columns of line 83: candidate names actually present. -/
def featCols (t : Table) : List String :=
  candidateFeatures.filter (fun c => decide (c ∈ t.numCols))

/-- The raw feature matrix X of line 90: one row per table row, columns in
selected order. -/
def featMatrix (t : Table) : List (List ℚ) :=
  t.rows.map (fun r => (featCols t).map (colVal t r))

/-- Column j of a row-major matrix. -/
def colAt (M : List (List ℚ)) (j : Nat) : List ℚ := M.map (fun v => v.getD j 0)

/-- Mean of a list of rationals (0 for the empty list). -/
def qmean (xs : List ℚ) : ℚ := xs.sum / xs.length

/-- Population variance (ddof = 0), as StandardScaler uses. -/
def qvar (xs : List ℚ) : ℚ := ((xs.map fun x => (x - qmean xs) ^ 2).sum) / xs.length

/-- Per-column means of the first k columns. -/
def colMeans (M : List (List ℚ)) (k : Nat) : List ℚ :=
  (List.range k).map (fun j => qmean (colAt M j))

/-- Per-column population variances of the first k columns. -/
def colVars (M : List (List ℚ)) (k : Nat) : List ℚ :=
  (List.range k).map (fun j => qvar (colAt M j))

/-- The fitted StandardizationState: per-column mean and scale.  With no
NaN in the matrix the fitted imputation means coincide with these means,
and only the StandardScaler step is stored by the source (line 102). -/
structure Scaler where
  means : List ℚ
  scales : List ℚ

/-- ScaleSpec vars scales: scales is exactly the scale_ vector StandardScaler
fits for these column variances - the nonnegative square root of the
variance, with 0 replaced by 1.  Square roots are irrational in general,
so fitted scales are passed in and constrained by this predicate. -/
def ScaleSpec (vars scales : List ℚ) : Prop :=
  List.Forall₂ (fun v s => (v = 0 ∧ s = 1) ∨ (0 < s ∧ s ^ 2 = v)) vars scales

instance (vars scales : List ℚ) : Decidable (ScaleSpec vars scales) :=
  inferInstanceAs (Decidable (List.Forall₂ _ _ _))

/-- ValidScales df scales: scales is the scale vector a StandardScaler fit
on df's selected feature matrix produces. -/
def ValidScales (df : Table) (scales : List ℚ) : Prop :=
  ScaleSpec (colVars (featMatrix df) (featCols df).length) scales

/-- StandardScaler.transform of one feature vector: (x - mean) / scale. -/
def stdRow (sc : Scaler) (v : List ℚ) : List ℚ :=
  List.zipWith3 (fun x m s => (x - m) / s) v sc.means sc.scales

/-- The standardized matrix produced by fit_transform on df with the given
fitted scales (line 99). -/
def stdMatrix (df : Table) (scales : List ℚ) : List (List ℚ) :=
  (featMatrix df).map (stdRow ⟨colMeans (featMatrix df) (featCols df).length, scales⟩)

/-- A KMeans fit_predict, abstracted: any deterministic labelling of the
standardized matrix with min 8 n clusters (labels are never inspected by
the claims under verification). -/
abbrev KMeansFit := List (List ℚ) → Nat → List Int

/-- Engine state: the five attributes set in PlayerRecommender (lines
38-43).  knn_model holds the matrix NearestNeighbors was fitted on;
kmeans_model the KMeans fit inputs (the seed is fixed at 42). -/
structure RState where
  knn_model : Option (List (List ℚ))
  kmeans_model : Option (List (List ℚ) × Nat)
  feature_columns : Option (List String)
  scaler : Option Scaler
  players_df : Option Table

/-- The freshly constructed recommender (lines 34-43). -/
def initState : RState := ⟨none, none, none, none, none⟩

/-- set_data (lines 45-53). -/
def set_data (st : RState) (df : Table) : RState := { st with players_df := some df }

/-- Failures of preprocess_data, surfaced via error_occurred. -/
inductive PreError where
  | noData
  | insufficientFeatures
deriving DecidableEq

/-- preprocess_data on self.players_df (lines 55-108): reject a missing or
empty table; assign self.feature_columns (line 74, before any further
check); select the candidate columns present; reject fewer than 5; fit
the imputer+scaler pipeline on the selected matrix and store the scaler.
Returns the new state with the transformed matrix and selected columns. -/
def preprocess_data (st : RState) (scales : List ℚ) :
    RState × Except PreError (List (List ℚ) × List String) :=
  match st.players_df with
  | none => (st, .error .noData)
  | some df =>
    if df.rows.isEmpty then (st, .error .noData)
    else
      let st1 := { st with feature_columns := some candidateFeatures }
      if (featCols df).length < 5 then (st1, .error .insufficientFeatures)
      else
        let sc : Scaler := ⟨colMeans (featMatrix df) (featCols df).length, scales⟩
        ({ st1 with scaler := some sc }, .ok (stdMatrix df scales, featCols df))

/-- train_models (lines 110-142): preprocess, fit NearestNeighbors with
capacity min 11 n on X, fit KMeans with min 8 n clusters and seed 42, and
write the cluster labels onto players_df.  A preprocessing failure
returns early with the state preprocess_data left behind. -/
def train_models (km : KMeansFit) (st : RState) (scales : List ℚ) :
    RState × Except PreError Unit :=
  match preprocess_data st scales with
  | (st1, .error e) => (st1, .error e)
  | (st1, .ok (X, _features)) =>
    let labels := km X (min 8 X.length)
    ({ st1 with
        knn_model := some X
        kmeans_model := some (X, min 8 X.length)
        players_df := st1.players_df.map (fun df => { df with clusters := some labels }) },
     .ok ())

/-- Failures of recommend_similar_players, surfaced via error_occurred. -/
inductive QueryError where
  | pre (e : PreError)
  | untrained
  | playerNotFound
  | internal
deriving DecidableEq

/-- Index of the first row whose player_id column equals pid (line 162
takes the first match, line 168). -/
def firstIdxOf (rows : List Row) (pid : Int) : Option Nat :=
  rows.findIdx? (fun r => r.pid == pid)

/-- Lines 153-158: use the trained k-NN model, training lazily first when
none exists; returns the state after any lazy fit and the model in use. -/
def resolveModel (km : KMeansFit) (st : RState) (scales : List ℚ) :
    RState × Option (List (List ℚ)) :=
  match st.knn_model with
  | some M => (st, some M)
  | none =>
    let st1 := (train_models km st scales).1
    (st1, st1.knn_model)

/-- Squared Euclidean distance between two feature vectors. -/
def sqd (u v : List ℚ) : ℚ := (List.zipWith (fun a b => (a - b) ^ 2) u v).sum

/-- Rows of the fitted matrix paired with their index and their squared
distance to the query vector, in row order. -/
def distPairs (q : List ℚ) : Nat → List (List ℚ) → List (Nat × ℚ)
  | _, [] => []
  | i, v :: M => (i, sqd v q) :: distPairs q (i + 1) M

/-- Comparison by squared distance (equivalently by distance). -/
def pairLE : (Nat × ℚ) → (Nat × ℚ) → Prop := fun a b => a.2 ≤ b.2

instance : DecidableRel pairLE := fun a b => inferInstanceAs (Decidable (a.2 ≤ b.2))

instance : IsTotal (Nat × ℚ) pairLE := ⟨fun a b => le_total a.2 b.2⟩

instance : IsTrans (Nat × ℚ) pairLE := ⟨fun _ _ _ h h₂ => le_trans h h₂⟩

/-- NearestNeighbors.kneighbors (line 177): the k nearest fitted rows to q,
as (row index, squared distance) sorted by ascending distance; sklearn
raises ValueError when k exceeds the number of fitted rows (or is 0),
rather than returning fewer neighbours. -/
def kneighborsSq (M : List (List ℚ)) (q : List ℚ) (k : Nat) : Except Unit (List (Nat × ℚ)) :=
  if k = 0 ∨ M.length < k then .error ()
  else .ok ((List.insertionSort pairLE (distPairs q 0 M)).take k)

/-- players_df.iloc over the neighbour indices (line 187), keeping each
row's squared distance; an out-of-range index raises. -/
def attachRows (df : Table) : List (Nat × ℚ) → Option (List (Row × ℚ))
  | [] => some []
  | p :: ps =>
    match df.rows[p.1]?, attachRows df ps with
    | some r, some rest => some ((r, p.2) :: rest)
    | _, _ => none

/-- recommend_similar_players (lines 144-194).  Steps, in source order:
lazy train when no model exists (153-155); give up if still none (157);
locate the first row with the reference player_id (162-168); preprocess
the current table again "to ensure consistency" (170-171), which refits
and overwrites feature_columns and scaler; take row player_idx of the
fresh matrix as query vector; ask the fitted index for n+1 neighbours;
drop the first result; look up the neighbour rows.  Exceptions from
sklearn (e.g. too many neighbours requested) surface as a generic error.
Distances are carried squared; see claim8 for the reported distances. -/
def recommend_similar_players (km : KMeansFit) (st : RState) (scales : List ℚ)
    (player_id : Int) (n_recommendations : Nat) :
    RState × Except QueryError (List (Row × ℚ)) :=
  match resolveModel km st scales with
  | (st1, none) => (st1, .error .untrained)
  | (st1, some M) =>
    match st1.players_df with
    | none => (st1, .error .internal)
    | some df =>
      match firstIdxOf df.rows player_id with
      | none => (st1, .error .playerNotFound)
      | some idx =>
        match preprocess_data st1 scales with
        | (st2, .error e) => (st2, .error (.pre e))
        | (st2, .ok (X, _)) =>
          match X[idx]? with
          | none => (st2, .error .internal)
          | some q =>
            match kneighborsSq M q (n_recommendations + 1) with
            | .error _ => (st2, .error .internal)
            | .ok pairs =>
              match attachRows df (pairs.drop 1) with
              | none => (st2, .error .internal)
              | some out => (st2, .ok out)

/-- The standardized query vector recommend_similar_players submits to the
fitted index for a given reference player_id: row player_idx of the matrix
obtained by preprocessing the current table again (lines 162-180). -/
def queryVectorUsed (st : RState) (scales : List ℚ) (pid : Int) : Option (List ℚ) :=
  match st.players_df with
  | none => none
  | some df =>
    match firstIdxOf df.rows pid with
    | none => none
    | some idx =>
      match (preprocess_data st scales).2 with
      | .error _ => none
      | .ok (X, _) => X[idx]?

/-- Modelled from the spec, for the refinement comparison of claim C2: the
query vector the spec prescribes, namely the reference player's current
row transformed under the StandardizationState stored at fit time (stored
scaler, stored selection), with no refit. -/
def specQueryVector (st : RState) (pid : Int) : Option (List ℚ) :=
  match st.players_df, st.scaler with
  | some df, some sc =>
    match firstIdxOf df.rows pid with
    | none => none
    | some idx =>
      match df.rows[idx]? with
      | none => none
      | some r => some (stdRow sc ((featCols df).map (colVal df r)))
  | _, _ => none

/-- Similarity scores of line 188: 1 / (1 + distance), distance by distance. -/
def scoresOf (ds : List ℚ) : List ℚ := ds.map (fun d => 1 / (1 + d))

/-- ReportedDists out ds: ds is the list of Euclidean distances sklearn
reports alongside the neighbour rows - nonnegative square roots of the
squared distances carried in out. -/
def ReportedDists (out : List (Row × ℚ)) (ds : List ℚ) : Prop :=
  List.Forall₂ (fun d pr => 0 ≤ d ∧ d ^ 2 = pr.2) ds out

/-- A criteria query: the optional position value and the raw key/value
items of the criteria dictionary (numeric-or-missing values). -/
structure Criteria where
  position : Option String
  items : List (String × Option ℚ)

/-- Dictionary keys starting with min_ (line 218). -/
def minKey (k : String) : Bool := k.data.take 4 = "min_".data

/-- Dictionary keys starting with max_ (line 223). -/
def maxKey (k : String) : Bool := k.data.take 4 = "max_".data

/-- key[4:], the target column name of a threshold key. -/
def keyCol (k : String) : String := ⟨k.data.drop 4⟩

/-- One iteration of the filter loop of lines 217-226: a min_/max_ key with
a non-missing value whose target column exists filters the rows; anything
else leaves them unchanged. -/
def applyBound (df : Table) (rows : List Row) : String × Option ℚ → List Row
  | (_, none) => rows
  | (k, some v) =>
    if minKey k then
      if keyCol k ∈ df.numCols then
        rows.filter (fun r => decide (v ≤ colVal df r (keyCol k)))
      else rows
    else if maxKey k then
      if keyCol k ∈ df.numCols then
        rows.filter (fun r => decide (colVal df r (keyCol k) ≤ v))
      else rows
    else rows

/-- Descending-rating comparison of line 230. -/
def ratingDesc (df : Table) : Row → Row → Prop :=
  fun a b => colVal df b "rating" ≤ colVal df a "rating"

instance (df : Table) : DecidableRel (ratingDesc df) :=
  fun a b => inferInstanceAs (Decidable (colVal df b "rating" ≤ colVal df a "rating"))

/-- recommend_by_criteria (lines 196-238): position filter when the key is
present and truthy; the threshold loop; sort by rating descending when
that column exists; truncate to n. -/
def recommend_by_criteria (st : RState) (c : Criteria) (n : Nat) :
    Except Unit (List Row) :=
  match st.players_df with
  | none => .error ()
  | some df =>
    let rows1 :=
      match c.position with
      | some p => if p = "" then df.rows else df.rows.filter (fun r => r.pos == p)
      | none => df.rows
    let rows2 := c.items.foldl (applyBound df) rows1
    let rows3 :=
      if "rating" ∈ df.numCols then List.insertionSort (ratingDesc df) rows2 else rows2
    .ok (rows3.take n)

/-! ### Concrete data used by witnesses and counterexamples -/

/-- A raw demographic block with every field absent. -/
def noInfo : PlayerInfo := ⟨none, none, none, none, none, none, none, none, none⟩

/-- A raw statistics block with every field absent. -/
def noStats : StatBlock :=
  ⟨none, none, none, none, none, none, none, none, none,
   none, none, none, none, none, none, none, none, none⟩

/-- A raw stint in which the player scored twice from a single shot
(rebounds, deflections or simply noisy provider data). -/
def statOverScore : StatBlock := { noStats with shots_total := some 1, goals_total := some 2 }

/-- A raw entry holding that single stint. -/
def rawOverScore : RawEntry := ⟨{ noInfo with id := some 9 }, [statOverScore]⟩

/-- The clean flat row the Normalizer produces from rawOverScore. -/
def recOverScore : PlayerRecord := fillRecord (flatRecord { noInfo with id := some 9 } statOverScore)

/-- The all-zero clean row (every raw field missing). -/
def zeroRecord : PlayerRecord := fillRecord (flatRecord noInfo noStats)

/-- A clean row with 90 minutes over 2 appearances and 1 goal from 4 shots. -/
def recPlayed : PlayerRecord :=
  { zeroRecord with
      appearances := 2, minutes_played := 90,
      goals_total := 1, shots_total := 4,
      duels_won := 3, duels_total := 4 }

/-! ### Concrete recommender data for witnesses and counterexamples -/

/-- The five candidate feature names given to the small concrete tables. -/
def fiveCols : List String :=
  ["age", "minutes_played", "rating", "shots_total", "shots_on_target"]

/-- Concrete KMeans stand-in labelling every row 0. -/
def kmZ : KMeansFit := fun M _ => M.map (fun _ => 0)

/-- All-ones scale vector for five features (all the concrete tables below
have per-column variance 1 or 0, so StandardScaler fits scale 1). -/
def onesFive : List ℚ := [1, 1, 1, 1, 1]

/-- Fit table: two players with distinct ids and feature vectors. -/
def dfFit : Table :=
  ⟨fiveCols, [⟨1, "A", [0, 0, 0, 0, 0]⟩, ⟨2, "B", [2, 2, 2, 2, 2]⟩], none⟩

/-- The engine after loading dfFit and training on it. -/
def stTrained : RState := (train_models kmZ (set_data initState dfFit) onesFive).1

/-- A table offering only 3 of the 14 candidate feature columns. -/
def dfThin : Table := ⟨["age", "rating", "duels_won"], [⟨3, "C", [1, 1, 1]⟩], none⟩

/-- Criteria-mode table: three defenders with tackles_total 40, 55, 70. -/
def dfDef : Table :=
  ⟨["tackles_total"],
   [⟨11, "Defender", [40]⟩, ⟨12, "Defender", [55]⟩, ⟨13, "Defender", [70]⟩], none⟩

/-- The engine holding dfDef (criteria mode needs no trained model). -/
def stDef : RState := set_data initState dfDef

/-- Scenario-B criteria: position Defender, min_tackles_total 50. -/
def critDef : Criteria := ⟨some "Defender", [("min_tackles_total", some 50)]⟩

/-- Success tester for Except values. -/
def exceptIsOk {ε α : Type} : Except ε α → Bool
  | .ok _ => true
  | .error _ => false

/-- Outcome of the similarity query when the engine state is exactly the
one a successful fit on df left behind (no data change in between); used
to transfer concrete evaluations through query_stable. -/
def simQuery (df : Table) (scales : List ℚ) (pid : Int) (n : Nat) :
    Except QueryError (List (Row × ℚ)) :=
  match firstIdxOf df.rows pid with
  | none => .error .playerNotFound
  | some idx =>
    match (stdMatrix df scales)[idx]? with
    | none => .error .internal
    | some q =>
      match kneighborsSq (stdMatrix df scales) q (n + 1) with
      | .error _ => .error .internal
      | .ok pairs =>
        match attachRows df (pairs.drop 1) with
        | none => .error .internal
        | some out => .ok out

/-- Fit table whose two rows differ in a single feature, so the one
neighbour distance is the rational 2 (squared distance 4). -/
def dfClose : Table :=
  ⟨fiveCols, [⟨1, "A", [0, 0, 0, 0, 0]⟩, ⟨2, "B", [2, 0, 0, 0, 0]⟩], none⟩

/-- The engine after loading dfClose and training on it. -/
def stTrainedClose : RState := (train_models kmZ (set_data initState dfClose) onesFive).1

/-- A replacement table loaded after training on dfFit: the first feature
column is now constant, so its fitted mean/scale differ from dfFit's. -/
def dfB : Table :=
  ⟨fiveCols, [⟨1, "A", [0, 0, 0, 0, 0]⟩, ⟨2, "B", [0, 2, 2, 2, 2]⟩], none⟩

/-- A table holding two stints of the same player (player_id 1 twice). -/
def dfDup : Table :=
  ⟨fiveCols, [⟨1, "A", [0, 0, 0, 0, 0]⟩, ⟨1, "B", [2, 2, 2, 2, 2]⟩], none⟩

/-- The engine after loading dfDup and training on it. -/
def stTrainedDup : RState := (train_models kmZ (set_data initState dfDup) onesFive).1

/-! ### Claims about the Normalizer and the Metric Calculator -/

/-- Helper: the append loop of buildRows is flatMap of the per-entry rows. -/
theorem buildRows_eq_flatMap (l : List RawEntry) :
    buildRows l = l.flatMap (fun e => e.statistics.map (flatRecord e.player)) := by
  induction l with
  | nil => rfl
  | cons e es ih => simp [buildRows, ih]

/-- C9: a non-empty raw entry list yields exactly one clean row per
(player, statistics block) pair, in input order, with no deduplication by
player; the empty list fails with EmptyInputError and yields no table. -/
theorem claim9_normalizer_rows (response : List RawEntry) :
    (response = [] → process_players_data response = .error .emptyInput) ∧
    (response ≠ [] →
      process_players_data response =
        .ok (response.flatMap
          (fun e => e.statistics.map (fun s => fillRecord (flatRecord e.player s))))) := by
  constructor
  · intro h; subst h; rfl
  · intro h
    have hne : response.isEmpty = false := by
      cases response with
      | nil => exact absurd rfl h
      | cons a l => rfl
    simp only [process_players_data, hne, Bool.false_eq_true, if_false,
      buildRows_eq_flatMap, List.map_flatMap, List.map_map]
    rfl

/-- Helper: the normalizer output at the concrete entry rawOverScore. -/
theorem process_rawOverScore :
    process_players_data [rawOverScore] = .ok [recOverScore] := by
  simp [process_players_data, buildRows, rawOverScore, recOverScore]

/-- Closed witness for C9 at a concrete input. -/
theorem claim9_normalizer_rows_witness :
    process_players_data [rawOverScore] = .ok [recOverScore] := by
  have h := (claim9_normalizer_rows [rawOverScore]).2 (by simp)
  simpa [rawOverScore, recOverScore] using h

/-- C7: after the Metric Calculator, every numeric cell of the enriched
row is present and finite (the base columns are finite rationals by the
fill of handle_missing_values; the four derived metric cells, the only
ones that can become NaN or infinite, are all some after cleanup). -/
theorem claim7_no_missing_after_metrics (r : PlayerRecord) :
    (calculate_player_metrics r).minutes_per_appearance.isSome ∧
    (calculate_player_metrics r).pass_completion_rate.isSome ∧
    (calculate_player_metrics r).shot_conversion_rate.isSome ∧
    (calculate_player_metrics r).duels_success_rate.isSome := by
  simp [calculate_player_metrics, cleanMetrics]

/-- C6: minutes_per_appearance is minutes_played / appearances when
appearances is positive and 0 when appearances is 0 (the raw division of
line 149 then produces inf or NaN, rewritten to 0 by lines 168-170). -/
theorem claim6_minutes_per_appearance (r : PlayerRecord) :
    (0 < r.appearances →
      (calculate_player_metrics r).minutes_per_appearance =
        some (r.minutes_played / r.appearances)) ∧
    (r.appearances = 0 →
      (calculate_player_metrics r).minutes_per_appearance = some 0) := by
  constructor
  · intro h
    have hne : r.appearances ≠ 0 := ne_of_gt h
    simp [calculate_player_metrics, cleanMetrics, rawMetrics, fdiv, hne]
  · intro h
    simp [calculate_player_metrics, cleanMetrics, rawMetrics, fdiv, h]

/-- Closed witness for C6 at concrete rows. -/
theorem claim6_minutes_per_appearance_witness :
    (calculate_player_metrics recPlayed).minutes_per_appearance = some (90 / 2) ∧
    (calculate_player_metrics zeroRecord).minutes_per_appearance = some 0 := by
  constructor
  · have h := (claim6_minutes_per_appearance recPlayed).1
    have ha : recPlayed.appearances = 2 := rfl
    have hm : recPlayed.minutes_played = 90 := rfl
    rw [ha, hm] at h
    exact h (by norm_num)
  · exact (claim6_minutes_per_appearance zeroRecord).2 rfl

/-- C5 as stated is false: the enriched table can hold a row with
shot_conversion_rate above 100, because nothing constrains goals_total by
shots_total in the raw data.  From the concrete raw entry rawOverScore
(2 goals, 1 shot) the pipeline produces a rate of 200. -/
theorem claim5_counterexample :
    process_players_data [rawOverScore] = .ok [recOverScore] ∧
    (calculate_player_metrics recOverScore).shot_conversion_rate = some 200 ∧
    ¬ ((200 : ℚ) ≤ 100) := by
  refine ⟨process_rawOverScore, ?_, by norm_num⟩
  norm_num [calculate_player_metrics, cleanMetrics, rawMetrics, recOverScore,
    fillRecord, flatRecord, statOverScore, noStats, noInfo]

/-- C5 amended: each rate is exactly 0 when its denominator is 0, and lies
in [0, 100] whenever the numerator is nonnegative and bounded by the
denominator (0 ≤ goals_total ≤ shots_total, 0 ≤ duels_won ≤ duels_total);
without that bound the rate can exceed 100, see claim5_counterexample. -/
theorem claim5_rates_amended (r : PlayerRecord) :
    (r.shots_total = 0 →
      (calculate_player_metrics r).shot_conversion_rate = some 0) ∧
    (r.duels_total = 0 →
      (calculate_player_metrics r).duels_success_rate = some 0) ∧
    (0 ≤ r.goals_total → r.goals_total ≤ r.shots_total →
      ∃ q, (calculate_player_metrics r).shot_conversion_rate = some q ∧
        0 ≤ q ∧ q ≤ 100) ∧
    (0 ≤ r.duels_won → r.duels_won ≤ r.duels_total →
      ∃ q, (calculate_player_metrics r).duels_success_rate = some q ∧
        0 ≤ q ∧ q ≤ 100) := by
  refine ⟨?_, ?_, ?_, ?_⟩
  · intro h; simp [calculate_player_metrics, cleanMetrics, rawMetrics, h]
  · intro h; simp [calculate_player_metrics, cleanMetrics, rawMetrics, h]
  · intro h0 hle
    by_cases hs : 0 < r.shots_total
    · refine ⟨r.goals_total / r.shots_total * 100,
        by simp [calculate_player_metrics, cleanMetrics, rawMetrics, hs], ?_, ?_⟩
      · positivity
      · have h1 : r.goals_total / r.shots_total ≤ 1 := (div_le_one hs).mpr hle
        nlinarith
    · exact ⟨0, by simp [calculate_player_metrics, cleanMetrics, rawMetrics, hs],
        le_refl 0, by norm_num⟩
  · intro h0 hle
    by_cases hs : 0 < r.duels_total
    · refine ⟨r.duels_won / r.duels_total * 100,
        by simp [calculate_player_metrics, cleanMetrics, rawMetrics, hs], ?_, ?_⟩
      · positivity
      · have h1 : r.duels_won / r.duels_total ≤ 1 := (div_le_one hs).mpr hle
        nlinarith
    · exact ⟨0, by simp [calculate_player_metrics, cleanMetrics, rawMetrics, hs],
        le_refl 0, by norm_num⟩

/-- Closed witness for the amended C5 at a concrete row. -/
theorem claim5_rates_amended_witness :
    ((calculate_player_metrics zeroRecord).shot_conversion_rate = some 0) ∧
    (∃ q, (calculate_player_metrics recPlayed).duels_success_rate = some q ∧
      0 ≤ q ∧ q ≤ 100) := by
  constructor
  · exact (claim5_rates_amended zeroRecord).1 rfl
  · have h := (claim5_rates_amended recPlayed).2.2.2
    have hw : recPlayed.duels_won = 3 := rfl
    have ht : recPlayed.duels_total = 4 := rfl
    rw [hw, ht] at h
    exact h (by norm_num) (by norm_num)

/-! ### Helper lemmas about distances, sorting and lookup -/

theorem sqd_nonneg (u v : List ℚ) : 0 ≤ sqd u v := by
  induction u generalizing v with
  | nil => simp [sqd]
  | cons a u ih =>
    cases v with
    | nil => simp [sqd]
    | cons b w =>
      have hw := ih w
      simp only [sqd, List.zipWith_cons_cons, List.sum_cons] at hw ⊢
      have hsq : 0 ≤ (a - b) ^ 2 := sq_nonneg _
      linarith

theorem sqd_self (v : List ℚ) : sqd v v = 0 := by
  induction v with
  | nil => rfl
  | cons a u ih =>
    simp only [sqd, List.zipWith_cons_cons, List.sum_cons]
    have h2 : sqd u u = 0 := ih
    simp only [sqd] at h2
    rw [h2]
    ring

theorem sqd_eq_zero {u v : List ℚ} (hl : u.length = v.length) (h : sqd u v = 0) : u = v := by
  induction u generalizing v with
  | nil => cases v with
    | nil => rfl
    | cons b w => simp at hl
  | cons a u ih =>
    cases v with
    | nil => simp at hl
    | cons b w =>
      have hrec : 0 ≤ sqd u w := sqd_nonneg u w
      have hsq : 0 ≤ (a - b) ^ 2 := sq_nonneg _
      have hsum : (a - b) ^ 2 + sqd u w = 0 := by
        simpa [sqd, List.zipWith_cons_cons] using h
      have h1 : (a - b) ^ 2 = 0 := by linarith
      have h2 : sqd u w = 0 := by linarith
      have hab : a = b := by
        have := pow_eq_zero_iff (by norm_num : (2:Nat) ≠ 0) |>.mp h1
        linarith [sub_eq_zero.mp this]
      have hlen : u.length = w.length := by simpa using hl
      rw [hab, ih hlen h2]

theorem distPairs_getElem? (q : List ℚ) (i j : Nat) (M : List (List ℚ)) :
    (distPairs q i M)[j]? = M[j]?.map (fun v => (i + j, sqd v q)) := by
  induction M generalizing i j with
  | nil => simp [distPairs]
  | cons v M ih =>
    cases j with
    | zero => simp [distPairs]
    | succ j =>
      simp only [distPairs, List.getElem?_cons_succ, ih (i + 1) j]
      cases h : M[j]? <;> simp [h, Nat.add_assoc, Nat.add_comm 1 j]

theorem distPairs_length (q : List ℚ) (i : Nat) (M : List (List ℚ)) :
    (distPairs q i M).length = M.length := by
  induction M generalizing i with
  | nil => rfl
  | cons v M ih => simp [distPairs, ih]

theorem mem_distPairs {q : List ℚ} {i : Nat} {M : List (List ℚ)} {p : Nat × ℚ}
    (h : p ∈ distPairs q i M) : ∃ j v, M[j]? = some v ∧ p = (i + j, sqd v q) := by
  rcases List.getElem_of_mem h with ⟨j, hj, hget⟩
  have h2 : (distPairs q i M)[j]? = some p := by
    rw [List.getElem?_eq_some]; exact ⟨hj, hget⟩
  rw [distPairs_getElem? q i j M] at h2
  cases hM : M[j]? with
  | none => rw [hM] at h2; simp at h2
  | some v =>
    rw [hM] at h2
    exact ⟨j, v, hM, by simpa using h2.symm⟩

theorem countP_distPairs (q : List ℚ) (t : Nat) (i : Nat) (M : List (List ℚ)) :
    List.countP (fun p => p.1 == t) (distPairs q i M) =
      if i ≤ t ∧ t < i + M.length then 1 else 0 := by
  induction M generalizing i with
  | nil =>
    simp only [distPairs, List.countP_nil, List.length_nil, Nat.add_zero]
    split <;> omega
  | cons v M ih =>
    simp only [distPairs, List.countP_cons, ih (i + 1)]
    by_cases hit : i = t
    · subst hit
      have : ¬ (i + 1 ≤ i ∧ i < i + 1 + M.length) := by omega
      simp only [this, if_false]
      have hcond : i ≤ i ∧ i < i + (M.length + 1) := by omega
      simp [hcond]
    · have hbeq : ((i, sqd v q).1 == t) = false := by
        simp only [beq_eq_false_iff_ne, ne_eq]
        exact hit
      simp only [hbeq, cond_false]
      by_cases hin : i + 1 ≤ t ∧ t < i + 1 + M.length
      · have : i ≤ t ∧ t < i + (M.length + 1) := by omega
        simp [hin, this]
      · have : ¬ (i ≤ t ∧ t < i + (M.length + 1)) := by omega
        simp [hin, this]

theorem kneighborsSq_ok {M : List (List ℚ)} {q : List ℚ} {k : Nat} {ps : List (Nat × ℚ)}
    (h : kneighborsSq M q k = .ok ps) :
    k ≠ 0 ∧ k ≤ M.length ∧
      ps = (List.insertionSort pairLE (distPairs q 0 M)).take k := by
  by_cases hc : k = 0 ∨ M.length < k
  · simp [kneighborsSq, hc] at h
  · rcases not_or.mp hc with ⟨h0, hlt⟩
    refine ⟨h0, by omega, ?_⟩
    simp only [kneighborsSq, if_neg hc] at h
    exact (Except.ok.inj h).symm

theorem attachRows_spec {df : Table} {ps : List (Nat × ℚ)} {out : List (Row × ℚ)}
    (h : attachRows df ps = some out) :
    List.Forall₂ (fun pr p => df.rows[p.1]? = some pr.1 ∧ pr.2 = p.2) out ps := by
  induction ps generalizing out with
  | nil =>
    simp only [attachRows, Option.some.injEq] at h
    subst h; exact List.Forall₂.nil
  | cons p ps ih =>
    simp only [attachRows] at h
    cases hr : df.rows[p.1]? with
    | none => rw [hr] at h; simp at h
    | some r =>
      rw [hr] at h
      cases hrest : attachRows df ps with
      | none => rw [hrest] at h; simp at h
      | some rest =>
        rw [hrest] at h
        simp only at h
        obtain rfl : (r, p.2) :: rest = out := Option.some.inj h
        exact List.Forall₂.cons ⟨hr, rfl⟩ (ih hrest)

theorem findIdx?_spec {α : Type} {p : α → Bool} {l : List α} {i j : Nat}
    (h : List.findIdx? p l i = some j) :
    ∃ k a, j = i + k ∧ l[k]? = some a ∧ p a = true := by
  induction l generalizing i with
  | nil => simp [List.findIdx?_nil] at h
  | cons x xs ih =>
    rw [List.findIdx?_cons] at h
    by_cases hx : p x
    · simp only [hx, if_true, Option.some.injEq] at h
      exact ⟨0, x, by omega, by simp, hx⟩
    · simp only [hx, Bool.false_eq_true, if_false] at h
      rcases ih h with ⟨k, a, hk, hget, hp⟩
      exact ⟨k + 1, a, by omega, by simpa using hget, hp⟩

theorem two_le_countP {α : Type} {p : α → Bool} {l : List α} {i j : Nat} {a b : α}
    (hij : i < j) (ha : l[i]? = some a) (hb : l[j]? = some b)
    (hpa : p a = true) (hpb : p b = true) : 2 ≤ List.countP p l := by
  have hsplit := List.take_append_drop j l
  have hcount : List.countP p l =
      List.countP p (List.take j l) + List.countP p (List.drop j l) := by
    conv_lhs => rw [← hsplit]
    exact List.countP_append p _ _
  have h1 : 0 < List.countP p (List.take j l) := by
    refine List.countP_pos_iff.mpr ⟨a, ?_, hpa⟩
    have : (List.take j l)[i]? = some a := by
      rw [List.getElem?_take]; simp [hij, ha]
    rcases List.getElem?_eq_some.mp this with ⟨hlt, hget⟩
    exact hget ▸ List.getElem_mem hlt
  have h2 : 0 < List.countP p (List.drop j l) := by
    refine List.countP_pos_iff.mpr ⟨b, ?_, hpb⟩
    have : (List.drop j l)[0]? = some b := by
      rw [List.getElem?_drop]; simpa using hb
    rcases List.getElem?_eq_some.mp this with ⟨hlt, hget⟩
    exact hget ▸ List.getElem_mem hlt
  omega

theorem scaleVal_unique {v a b : ℚ}
    (h₁ : v = 0 ∧ a = 1 ∨ 0 < a ∧ a ^ 2 = v)
    (h₂ : v = 0 ∧ b = 1 ∨ 0 < b ∧ b ^ 2 = v) : a = b := by
  rcases h₁ with ⟨hv, ha⟩ | ⟨hpos, hsq⟩
  · rcases h₂ with ⟨_, hb⟩ | ⟨hpos₂, hsq₂⟩
    · rw [ha, hb]
    · exfalso
      rw [hv] at hsq₂
      have := pow_eq_zero_iff (by norm_num : (2:Nat) ≠ 0) |>.mp hsq₂
      linarith
  · rcases h₂ with ⟨hv₂, _⟩ | ⟨hpos₂, hsq₂⟩
    · exfalso
      rw [hv₂] at hsq
      have := pow_eq_zero_iff (by norm_num : (2:Nat) ≠ 0) |>.mp hsq
      linarith
    · have hmul : (a - b) * (a + b) = 0 := by linear_combination hsq - hsq₂
      rcases mul_eq_zero.mp hmul with h | h
      · linarith [sub_eq_zero.mp h]
      · linarith

theorem ScaleSpec_unique {vars s₁ s₂ : List ℚ}
    (h₁ : ScaleSpec vars s₁) (h₂ : ScaleSpec vars s₂) : s₁ = s₂ := by
  induction h₁ generalizing s₂ with
  | nil => cases h₂; rfl
  | cons hR _ ih =>
    cases h₂ with
    | cons hR₂ htail =>
      have hhead := scaleVal_unique hR hR₂
      have htl := ih htail
      rw [hhead, htl]

/-! ### Structural lemmas about preprocessing and training -/

theorem featCols_clusters (df : Table) (x : Option (List Int)) :
    featCols { df with clusters := x } = featCols df := rfl

theorem featMatrix_clusters (df : Table) (x : Option (List Int)) :
    featMatrix { df with clusters := x } = featMatrix df := rfl

theorem stdMatrix_clusters (df : Table) (x : Option (List Int)) (scales : List ℚ) :
    stdMatrix { df with clusters := x } scales = stdMatrix df scales := rfl

theorem stdMatrix_length (df : Table) (scales : List ℚ) :
    (stdMatrix df scales).length = df.rows.length := by
  simp [stdMatrix, featMatrix]

theorem length_zipWith3 {α β γ δ : Type} (f : α → β → γ → δ) :
    ∀ (as : List α) (bs : List β) (cs : List γ),
      (List.zipWith3 f as bs cs).length = min as.length (min bs.length cs.length)
  | [], _, _ => by simp [List.zipWith3]
  | _ :: _, [], _ => by simp [List.zipWith3]
  | _ :: _, _ :: _, [] => by simp [List.zipWith3]
  | a :: as, b :: bs, c :: cs => by
    simp [List.zipWith3, length_zipWith3 f as bs cs]
    omega

theorem colMeans_length (M : List (List ℚ)) (k : Nat) : (colMeans M k).length = k := by
  simp [colMeans]

theorem colVars_length (M : List (List ℚ)) (k : Nat) : (colVars M k).length = k := by
  simp [colVars]

theorem stdMatrix_row_length {df : Table} {scales : List ℚ}
    (hs : scales.length = (featCols df).length) :
    ∀ v ∈ stdMatrix df scales, v.length = (featCols df).length := by
  intro v hv
  simp only [stdMatrix, List.mem_map] at hv
  rcases hv with ⟨w, hw, hwv⟩
  simp only [featMatrix, List.mem_map] at hw
  rcases hw with ⟨r, _, hrw⟩
  subst hwv
  rw [stdRow, length_zipWith3, ← hrw]
  simp [colMeans_length, hs]

theorem ValidScales_length {df : Table} {scales : List ℚ} (h : ValidScales df scales) :
    scales.length = (featCols df).length := by
  have := List.Forall₂.length_eq h
  rw [← this, colVars_length]

theorem preprocess_eval (st : RState) (df : Table) (scales : List ℚ)
    (hdf : st.players_df = some df) (hne : df.rows ≠ [])
    (hfeat : 5 ≤ (featCols df).length) :
    preprocess_data st scales =
      ({ st with feature_columns := some candidateFeatures,
                 scaler := some ⟨colMeans (featMatrix df) (featCols df).length, scales⟩ },
       .ok (stdMatrix df scales, featCols df)) := by
  have hE : df.rows.isEmpty = false := by
    cases hr : df.rows with
    | nil => exact absurd hr hne
    | cons a l => rfl
  simp only [preprocess_data, hdf, hE, Bool.false_eq_true, if_false, if_neg (by omega : ¬ (featCols df).length < 5)]

theorem preprocess_ok {st st' : RState} {scales : List ℚ}
    {X : List (List ℚ)} {feats : List String}
    (h : preprocess_data st scales = (st', .ok (X, feats))) :
    ∃ df, st.players_df = some df ∧ df.rows ≠ [] ∧ 5 ≤ (featCols df).length ∧
      feats = featCols df ∧ X = stdMatrix df scales ∧
      st' = { st with
        feature_columns := some candidateFeatures,
        scaler := some ⟨colMeans (featMatrix df) (featCols df).length, scales⟩ } := by
  cases hdf : st.players_df with
  | none => simp [preprocess_data, hdf] at h
  | some df =>
    by_cases hE : df.rows.isEmpty
    · simp [preprocess_data, hdf, hE] at h
    · by_cases hlen : (featCols df).length < 5
      · simp [preprocess_data, hdf, hE, hlen] at h
      · rw [preprocess_eval st df scales hdf (by simpa [List.isEmpty_iff] using hE) (by omega)] at h
        have h1 := congrArg Prod.fst h
        have h2 := congrArg Prod.snd h
        simp only at h1 h2
        have h3 := Except.ok.inj h2
        refine ⟨df, rfl, by simpa [List.isEmpty_iff] using hE, by omega, ?_, ?_, ?_⟩
        · exact (congrArg Prod.snd h3).symm
        · exact (congrArg Prod.fst h3).symm
        · rw [← h1, hdf]

theorem train_ok {km : KMeansFit} {st st' : RState} {scales : List ℚ}
    (h : train_models km st scales = (st', .ok ())) :
    ∃ df, st.players_df = some df ∧ df.rows ≠ [] ∧ 5 ≤ (featCols df).length ∧
      st'.knn_model = some (stdMatrix df scales) ∧
      st'.feature_columns = some candidateFeatures ∧
      st'.scaler = some ⟨colMeans (featMatrix df) (featCols df).length, scales⟩ ∧
      st'.players_df = some { df with
        clusters := some (km (stdMatrix df scales) (min 8 (stdMatrix df scales).length)) } := by
  cases hpre : preprocess_data st scales with
  | mk st1 res =>
    cases res with
    | error e => simp [train_models, hpre] at h
    | ok Xf =>
      cases Xf with
      | mk X feats =>
        rcases preprocess_ok hpre with ⟨df, hdf, hne, hfeat, hfeats, hX, hst1⟩
        simp only [train_models, hpre] at h
        have hst' := congrArg Prod.fst h
        simp only at hst'
        subst hX
        refine ⟨df, hdf, hne, hfeat, ?_, ?_, ?_, ?_⟩
        · rw [← hst']
        · rw [← hst']; simp [hst1]
        · rw [← hst']; simp [hst1]
        · rw [← hst']; simp [hst1, hdf]

/-! ### Claim C3: a fit with insufficient features fails cleanly -/

/-- C3: when fewer than 5 of the 14 candidate feature names are present in
the (non-empty) table, the fit fails with the insufficient-features error
and the engine state is exactly unchanged.  The hypothesis on
feature_columns holds for any previously trained engine (train_ok),
because every fit stores the full candidate list there; the scaler, the
two models and the table are never touched before the failing check. -/
theorem claim3_insufficient_features (km : KMeansFit) (st : RState) (scales : List ℚ)
    (df : Table)
    (hdf : st.players_df = some df)
    (hfc : st.feature_columns = some candidateFeatures)
    (hne : df.rows ≠ [])
    (hthin : (featCols df).length < 5) :
    train_models km st scales = (st, .error .insufficientFeatures) := by
  have hE : df.rows.isEmpty = false := by
    cases hr : df.rows with
    | nil => exact absurd hr hne
    | cons a l => rfl
  have hst1 : (⟨st.knn_model, st.kmeans_model, some candidateFeatures,
      st.scaler, some df⟩ : RState) = st := by
    cases st
    simp_all
  have hpre : preprocess_data st scales = (st, .error .insufficientFeatures) := by
    simp only [preprocess_data, hdf, hE, Bool.false_eq_true, if_false, if_pos hthin]
    rw [hst1]
  simp only [train_models, hpre]

/-- Closed witness for C3: a trained engine is handed the thin table and
the failing fit changes nothing. -/
theorem claim3_insufficient_features_witness :
    train_models kmZ (set_data stTrained dfThin) onesFive =
      (set_data stTrained dfThin, .error .insufficientFeatures) := by
  refine claim3_insufficient_features kmZ _ onesFive dfThin rfl ?_ (by simp [dfThin]) (by decide)
  rfl

/-! ### Claim C4: criteria-query filter soundness -/

/-- Helper: membership in the folded filter loop implies membership in the
starting rows and every applicable threshold. -/
theorem mem_applyBounds {df : Table} {items : List (String × Option ℚ)}
    {rows : List Row} {r : Row}
    (h : r ∈ items.foldl (applyBound df) rows) :
    r ∈ rows ∧ ∀ kv ∈ items, ∀ v, kv.2 = some v →
      (minKey kv.1 = true → keyCol kv.1 ∈ df.numCols →
        v ≤ colVal df r (keyCol kv.1)) ∧
      (minKey kv.1 = false → maxKey kv.1 = true → keyCol kv.1 ∈ df.numCols →
        colVal df r (keyCol kv.1) ≤ v) := by
  induction items generalizing rows with
  | nil => exact ⟨h, by simp⟩
  | cons kv items ih =>
    rw [List.foldl_cons] at h
    rcases ih h with ⟨hmem, hrest⟩
    have hbase : r ∈ rows ∧ ∀ v, kv.2 = some v →
        (minKey kv.1 = true → keyCol kv.1 ∈ df.numCols →
          v ≤ colVal df r (keyCol kv.1)) ∧
        (minKey kv.1 = false → maxKey kv.1 = true → keyCol kv.1 ∈ df.numCols →
          colVal df r (keyCol kv.1) ≤ v) := by
      rcases kv with ⟨k, _ | v⟩
      · exact ⟨hmem, by simp⟩
      · by_cases hmin : minKey k = true
        · by_cases hcol : keyCol k ∈ df.numCols
          · simp only [applyBound, hmin, if_true, if_pos hcol] at hmem
            rcases List.mem_filter.mp hmem with ⟨hm, hpred⟩
            refine ⟨hm, ?_⟩
            intro w hw
            obtain rfl : v = w := by simpa using hw
            exact ⟨fun _ _ => by simpa using hpred, fun hcontra _ _ => by simp_all⟩
          · simp only [applyBound, hmin, if_true, if_neg hcol] at hmem
            exact ⟨hmem, fun w hw => ⟨fun _ hc => absurd hc hcol,
              fun _ _ hc => absurd hc hcol⟩⟩
        · have hmin' : minKey k = false := by simpa using hmin
          by_cases hmax : maxKey k = true
          · by_cases hcol : keyCol k ∈ df.numCols
            · simp only [applyBound, hmin', Bool.false_eq_true, if_false,
                hmax, if_true, if_pos hcol] at hmem
              rcases List.mem_filter.mp hmem with ⟨hm, hpred⟩
              refine ⟨hm, ?_⟩
              intro w hw
              obtain rfl : v = w := by simpa using hw
              exact ⟨fun hc => by simp_all, fun _ _ _ => by simpa using hpred⟩
            · simp only [applyBound, hmin', Bool.false_eq_true, if_false,
                hmax, if_true, if_neg hcol] at hmem
              exact ⟨hmem, fun w hw => ⟨fun hc => by simp_all,
                fun _ _ hc => absurd hc hcol⟩⟩
          · have hmax' : maxKey k = false := by simpa using hmax
            simp only [applyBound, hmin', hmax', Bool.false_eq_true, if_false] at hmem
            exact ⟨hmem, fun w hw => ⟨fun hc => by simp_all, fun _ hc => by simp_all⟩⟩
    refine ⟨hbase.1, ?_⟩
    intro kv' hkv'
    rcases List.mem_cons.mp hkv' with rfl | hin
    · exact hbase.2
    · exact hrest kv' hin

/-- C4: every row returned by a criteria query satisfies the exact-match
position filter when a non-empty one is given, and satisfies col ≥ v for
every min_ key (and col ≤ v for every max_ key) whose value is present
and whose target column exists in the table; keys aiming at unknown
columns are ignored. -/
theorem claim4_criteria_query_sound (st : RState) (c : Criteria) (n : Nat)
    (df : Table) (out : List Row) (r : Row)
    (hdf : st.players_df = some df)
    (h : recommend_by_criteria st c n = .ok out)
    (hr : r ∈ out) :
    (∀ p, c.position = some p → p ≠ "" → r.pos = p) ∧
    (∀ kv ∈ c.items, ∀ v, kv.2 = some v →
      (minKey kv.1 = true → keyCol kv.1 ∈ df.numCols →
        v ≤ colVal df r (keyCol kv.1)) ∧
      (minKey kv.1 = false → maxKey kv.1 = true → keyCol kv.1 ∈ df.numCols →
        colVal df r (keyCol kv.1) ≤ v)) := by
  simp only [recommend_by_criteria, hdf] at h
  set rows1 :=
    (match c.position with
      | some p => if p = "" then df.rows else df.rows.filter (fun r => r.pos == p)
      | none => df.rows) with hrows1
  set rows2 := c.items.foldl (applyBound df) rows1 with hrows2
  have hout : out =
      (if "rating" ∈ df.numCols then List.insertionSort (ratingDesc df) rows2 else rows2).take n :=
    (Except.ok.inj h).symm
  have hr3 : r ∈
      (if "rating" ∈ df.numCols then List.insertionSort (ratingDesc df) rows2 else rows2) :=
    (List.take_sublist _ _).mem (hout ▸ hr)
  have hr2 : r ∈ rows2 := by
    by_cases hrat : "rating" ∈ df.numCols
    · rw [if_pos hrat] at hr3
      exact (List.perm_insertionSort (ratingDesc df) rows2).mem_iff.mp hr3
    · rwa [if_neg hrat] at hr3
  rcases mem_applyBounds hr2 with ⟨hr1, hbounds⟩
  refine ⟨?_, hbounds⟩
  intro p hp hpne
  rw [hp] at hrows1
  dsimp only at hrows1
  rw [if_neg hpne] at hrows1
  have := List.mem_filter.mp (hrows1 ▸ hr1)
  simpa using this.2

/-- Closed witness for C4: Scenario B, two defenders pass the filter and
each satisfies the position and threshold constraints. -/
theorem claim4_criteria_query_sound_witness :
    recommend_by_criteria stDef critDef 5 = .ok [⟨12, "Defender", [55]⟩, ⟨13, "Defender", [70]⟩] ∧
    (⟨12, "Defender", [55]⟩ : Row).pos = "Defender" ∧
    (50 : ℚ) ≤ colVal dfDef ⟨12, "Defender", [55]⟩ "tackles_total" := by
  have hrne : ¬ ("rating" = "tackles_total") := by decide
  have hq : recommend_by_criteria stDef critDef 5 =
      .ok [⟨12, "Defender", [55]⟩, ⟨13, "Defender", [70]⟩] := by
    norm_num [recommend_by_criteria, stDef, set_data, initState, dfDef, critDef,
      applyBound, minKey, maxKey, keyCol, colVal, List.findIdx?_cons, List.filter, hrne]
  have h := claim4_criteria_query_sound stDef critDef 5 dfDef _ ⟨12, "Defender", [55]⟩
    rfl hq (by simp)
  refine ⟨hq, h.1 "Defender" rfl (by decide), ?_⟩
  exact (h.2 ("min_tackles_total", some 50) (by simp [critDef]) 50 rfl).1 (by decide) (by decide)

/-! ### Claim C10: neighbour-count contract of the similarity query -/

theorem featCols_dfFit : featCols dfFit = fiveCols := by decide

theorem colMeans_dfFit :
    colMeans (featMatrix dfFit) (featCols dfFit).length = [1, 1, 1, 1, 1] := by
  have hfm : featMatrix dfFit = [[0, 0, 0, 0, 0], [2, 2, 2, 2, 2]] := by decide
  rw [hfm, featCols_dfFit]
  have hr : List.range fiveCols.length = [0, 1, 2, 3, 4] := by decide
  norm_num [colMeans, hr, colAt, qmean]

theorem stdMatrix_dfFit :
    stdMatrix dfFit onesFive = [[-1, -1, -1, -1, -1], [1, 1, 1, 1, 1]] := by
  have hfm : featMatrix dfFit = [[0, 0, 0, 0, 0], [2, 2, 2, 2, 2]] := by decide
  rw [stdMatrix, colMeans_dfFit, hfm]
  norm_num [stdRow, List.zipWith3, onesFive]

theorem stTrained_eval :
    stTrained = ⟨some [[-1, -1, -1, -1, -1], [1, 1, 1, 1, 1]],
                 some ([[-1, -1, -1, -1, -1], [1, 1, 1, 1, 1]], 2),
                 some candidateFeatures,
                 some ⟨[1, 1, 1, 1, 1], onesFive⟩,
                 some { dfFit with clusters := some [0, 0] }⟩ := by
  have hpre := preprocess_eval (set_data initState dfFit) dfFit onesFive rfl
    (by simp [dfFit]) (by decide)
  simp only [stTrained, train_models, hpre]
  simp only [stdMatrix_dfFit, colMeans_dfFit]
  norm_num [kmZ, set_data, initState, RState.mk.injEq, Table.mk.injEq, List.map]

/-- C10: a similarity query succeeds only when the requested neighbourhood
n+1 fits the number of fitted rows, in which case it returns exactly n
results; when n+1 exceeds the fitted rows, the neighbour search raises
(sklearn ValueError) and the query surfaces an error instead of returning
the fewer available neighbours. -/
theorem claim10_neighbor_count (km : KMeansFit) (st : RState) (scales : List ℚ)
    (pid : Int) (n : Nat) :
    (∀ st' out, recommend_similar_players km st scales pid n = (st', .ok out) →
      out.length = n ∧
        ∃ M, (resolveModel km st scales).2 = some M ∧ n + 1 ≤ M.length) ∧
    (∀ M, (resolveModel km st scales).2 = some M → M.length < n + 1 →
      exceptIsOk (recommend_similar_players km st scales pid n).2 = false) := by
  rcases hres : resolveModel km st scales with ⟨st1, mm⟩
  constructor
  · intro st' out h
    simp only [recommend_similar_players, hres] at h
    cases mm with
    | none => simp at h
    | some M =>
      cases hdf : st1.players_df with
      | none => simp [hdf] at h
      | some df =>
        simp only [hdf] at h
        cases hfi : firstIdxOf df.rows pid with
        | none => simp [hfi] at h
        | some idx =>
          simp only [hfi] at h
          rcases hpre : preprocess_data st1 scales with ⟨st2, res⟩
          simp only [hpre] at h
          cases res with
          | error e => simp at h
          | ok Xf =>
            rcases Xf with ⟨X, feats⟩
            cases hX : X[idx]? with
            | none => simp [hX] at h
            | some q =>
              simp only [hX] at h
              cases hkn : kneighborsSq M q (n + 1) with
              | error u => simp [hkn] at h
              | ok pairs =>
                simp only [hkn] at h
                cases hat : attachRows df (pairs.drop 1) with
                | none =>
                  try simp only [List.drop_one] at h
                  try simp only [List.drop_one] at hat
                  simp [hat] at h
                | some out2 =>
                  try simp only [List.drop_one] at h
                  try simp only [List.drop_one] at hat
                  simp only [hat] at h
                  have hout : out2 = out := by
                    have h2 := congrArg Prod.snd h
                    simpa using h2
                  rcases kneighborsSq_ok hkn with ⟨hk0, hkle, hps⟩
                  have hplen : pairs.length = n + 1 := by
                    rw [hps, List.length_take,
                      (List.perm_insertionSort pairLE (distPairs q 0 M)).length_eq,
                      distPairs_length]
                    omega
                  refine ⟨?_, M, rfl, hkle⟩
                  have hlen := (attachRows_spec hat).length_eq
                  rw [hout] at hlen
                  rw [hlen, List.length_tail, hplen]
                  omega
  · intro M hM hlt
    obtain rfl : mm = some M := hM
    cases hdf : st1.players_df with
    | none => simp [recommend_similar_players, hres, hdf, exceptIsOk]
    | some df =>
      cases hfi : firstIdxOf df.rows pid with
      | none => simp [recommend_similar_players, hres, hdf, hfi, exceptIsOk]
      | some idx =>
        rcases hpre : preprocess_data st1 scales with ⟨st2, res⟩
        cases res with
        | error e => simp [recommend_similar_players, hres, hdf, hfi, hpre, exceptIsOk]
        | ok Xf =>
          rcases Xf with ⟨X, feats⟩
          cases hX : X[idx]? with
          | none => simp [recommend_similar_players, hres, hdf, hfi, hpre, hX, exceptIsOk]
          | some q =>
            have hkn : kneighborsSq M q (n + 1) = .error () := by
              rw [kneighborsSq, if_pos (Or.inr hlt)]
            simp [recommend_similar_players, hres, hdf, hfi, hpre, hX, hkn, exceptIsOk]

/-! ### The similarity query on a freshly trained, unchanged state -/

theorem attachRows_clusters (df : Table) (x : Option (List Int)) (ps : List (Nat × ℚ)) :
    attachRows { df with clusters := x } ps = attachRows df ps := by
  induction ps with
  | nil => rfl
  | cons p ps ih => simp only [attachRows, ih]

/-- preprocess_eval restated for a table that differs from df only in the
cluster column (which is never a candidate feature). -/
theorem preprocess_eval_clusters (st : RState) (df : Table) (x : Option (List Int))
    (scales : List ℚ)
    (hdf : st.players_df = some { df with clusters := x })
    (hne : df.rows ≠ []) (hfeat : 5 ≤ (featCols df).length) :
    preprocess_data st scales =
      ({ st with
        feature_columns := some candidateFeatures,
        scaler := some ⟨colMeans (featMatrix df) (featCols df).length, scales⟩ },
       .ok (stdMatrix df scales, featCols df)) :=
  preprocess_eval st { df with clusters := x } scales hdf hne hfeat

/-- After a successful fit with nothing changed, the query-time refit of
preprocess_data reproduces the stored state exactly: the state is
unchanged and the matrix it returns is the fitted one. -/
theorem preprocess_refit_stable (km : KMeansFit) (st0 st1 : RState) (scales : List ℚ)
    (df : Table)
    (hdf : st0.players_df = some df)
    (htr : train_models km st0 scales = (st1, .ok ())) :
    preprocess_data st1 scales = (st1, .ok (stdMatrix df scales, featCols df)) := by
  rcases train_ok htr with ⟨df0, hdf0, hne, hfeat, hknn, hfc, hsc, hpdf⟩
  rw [hdf] at hdf0
  obtain rfl : df = df0 := Option.some.inj hdf0
  have hev := preprocess_eval_clusters st1 df _ scales hpdf hne hfeat
  have hta : ({ st1 with
      feature_columns := some candidateFeatures,
      scaler := some ⟨colMeans (featMatrix df) (featCols df).length, scales⟩ } : RState) = st1 := by
    cases st1
    simp_all
  rw [hta] at hev
  exact hev

/-- A similarity query issued right after a successful fit, with the same
fitted scales and an unchanged table, leaves the state unchanged (the
refit reproduces the stored state) and returns simQuery's outcome. -/
theorem query_stable (km : KMeansFit) (st0 st1 : RState) (scales : List ℚ) (df : Table)
    (pid : Int) (n : Nat)
    (hdf : st0.players_df = some df)
    (htr : train_models km st0 scales = (st1, .ok ())) :
    recommend_similar_players km st1 scales pid n = (st1, simQuery df scales pid n) := by
  have hpre2 := preprocess_refit_stable km st0 st1 scales df hdf htr
  rcases train_ok htr with ⟨df0, hdf0, hne, hfeat, hknn, hfc, hsc, hpdf⟩
  rw [hdf] at hdf0
  obtain rfl : df = df0 := Option.some.inj hdf0
  simp only [recommend_similar_players, resolveModel, hknn, hpdf, hpre2, simQuery,
    attachRows_clusters]
  cases firstIdxOf df.rows pid with
  | none => rfl
  | some idx =>
    dsimp only
    cases (stdMatrix df scales)[idx]? with
    | none => rfl
    | some q =>
      dsimp only
      cases kneighborsSq (stdMatrix df scales) q (n + 1) with
      | error u => rfl
      | ok pairs =>
        dsimp only
        cases attachRows df (pairs.drop 1) with
        | none => rfl
        | some out => rfl

/-- Training on dfFit from a fresh engine succeeds and yields stTrained. -/
theorem train_dfFit :
    train_models kmZ (set_data initState dfFit) onesFive = (stTrained, .ok ()) := by
  have hpre := preprocess_eval (set_data initState dfFit) dfFit onesFive rfl
    (by simp [dfFit]) (by decide)
  rw [stTrained]
  simp only [train_models, hpre]

/-- Concrete evaluation of the stable query on dfFit. -/
theorem simQuery_dfFit :
    simQuery dfFit onesFive 1 1 = .ok [(⟨2, "B", [2, 2, 2, 2, 2]⟩, 20)] := by
  have hfi : firstIdxOf dfFit.rows 1 = some 0 := by decide
  simp only [simQuery, hfi, stdMatrix_dfFit]
  norm_num [kneighborsSq, distPairs, sqd, pairLE, List.insertionSort,
    List.orderedInsert, attachRows, dfFit]

/-- Closed witness for C10: on a 2-row fitted table, asking for 1
neighbour succeeds with exactly 1 result, and asking for 5 fails. -/
theorem claim10_neighbor_count_witness :
    (recommend_similar_players kmZ stTrained onesFive 1 1).2 =
      .ok [(⟨2, "B", [2, 2, 2, 2, 2]⟩, 20)] ∧
    ([((⟨2, "B", [2, 2, 2, 2, 2]⟩ : Row), (20 : ℚ))].length = 1) ∧
    exceptIsOk (recommend_similar_players kmZ stTrained onesFive 1 5).2 = false := by
  have hq := query_stable kmZ (set_data initState dfFit) stTrained onesFive dfFit 1 1
    rfl train_dfFit
  rw [simQuery_dfFit] at hq
  refine ⟨by rw [hq], ?_, ?_⟩
  · exact ((claim10_neighbor_count kmZ stTrained onesFive 1 1).1 stTrained _ hq).1
  · refine (claim10_neighbor_count kmZ stTrained onesFive 1 5).2
      [[-1, -1, -1, -1, -1], [1, 1, 1, 1, 1]] ?_ (by norm_num)
    simp only [resolveModel, stTrained_eval]

/-! ### Claim C8: ordering and score shape of similarity results -/

theorem le_of_sq_le_sq {a b : ℚ} (h₁ : 0 ≤ b) (h₂ : a ^ 2 ≤ b ^ 2) : a ≤ b := by
  nlinarith [h₁, h₂]

/-- Membership facts about a successful similarity query: the returned
rows carry squared distances in non-decreasing order, all nonnegative. -/
theorem recommend_ok_sorted {km : KMeansFit} {st : RState} {scales : List ℚ}
    {pid : Int} {n : Nat} {st' : RState} {out : List (Row × ℚ)}
    (h : recommend_similar_players km st scales pid n = (st', .ok out)) :
    List.Pairwise (fun a b : Row × ℚ => a.2 ≤ b.2) out ∧ ∀ pr ∈ out, 0 ≤ pr.2 := by
  rcases hres : resolveModel km st scales with ⟨st1, mm⟩
  simp only [recommend_similar_players, hres] at h
  cases mm with
  | none => simp at h
  | some M =>
    cases hdf : st1.players_df with
    | none => simp [hdf] at h
    | some df =>
      simp only [hdf] at h
      cases hfi : firstIdxOf df.rows pid with
      | none => simp [hfi] at h
      | some idx =>
        simp only [hfi] at h
        rcases hpre : preprocess_data st1 scales with ⟨st2, res⟩
        simp only [hpre] at h
        cases res with
        | error e => simp at h
        | ok Xf =>
          rcases Xf with ⟨X, feats⟩
          cases hX : X[idx]? with
          | none => simp [hX] at h
          | some q =>
            simp only [hX] at h
            cases hkn : kneighborsSq M q (n + 1) with
            | error u => simp [hkn] at h
            | ok pairs =>
              simp only [hkn] at h
              cases hat : attachRows df (pairs.drop 1) with
              | none =>
                try simp only [List.drop_one] at h
                try simp only [List.drop_one] at hat
                simp [hat] at h
              | some out2 =>
                try simp only [List.drop_one] at h
                try simp only [List.drop_one] at hat
                simp only [hat] at h
                have hout : out2 = out := by
                  have h2 := congrArg Prod.snd h
                  simpa using h2
                subst hout
                rcases kneighborsSq_ok hkn with ⟨hk0, hkle, hps⟩
                have hsortS : List.Pairwise pairLE
                    (List.insertionSort pairLE (distPairs q 0 M)) :=
                  List.sorted_insertionSort pairLE (distPairs q 0 M)
                have hsortT : List.Pairwise pairLE pairs.tail := by
                  refine List.Pairwise.sublist ?_ hsortS
                  exact (List.tail_sublist pairs).trans (hps ▸ List.take_sublist _ _)
                have hmemP : ∀ p ∈ pairs.tail, 0 ≤ (p : Nat × ℚ).2 := by
                  intro p hp
                  have hp2 : p ∈ pairs := (List.tail_sublist pairs).mem hp
                  have hp3 : p ∈ List.insertionSort pairLE (distPairs q 0 M) :=
                    (hps ▸ List.take_sublist _ _).mem hp2
                  have hp4 : p ∈ distPairs q 0 M :=
                    (List.perm_insertionSort pairLE _).mem_iff.mp hp3
                  rcases mem_distPairs hp4 with ⟨j, v, _, hpv⟩
                  rw [hpv]
                  exact sqd_nonneg v q
                have hf := attachRows_spec hat
                constructor
                · rw [List.pairwise_iff_get] at hsortT ⊢
                  rcases List.forall₂_iff_get.mp hf with ⟨hlen, hget⟩
                  intro i j hij
                  have hi := hget i i.isLt (by omega)
                  have hj := hget j j.isLt (by omega)
                  have := hsortT ⟨i, by omega⟩ ⟨j, by omega⟩ hij
                  simp only [pairLE] at this
                  rw [hi.2, hj.2]
                  exact this
                · intro pr hpr
                  rcases List.mem_iff_get.mp hpr with ⟨i, hi⟩
                  rcases List.forall₂_iff_get.mp hf with ⟨hlen, hget⟩
                  have hg := hget i i.isLt (by omega)
                  rw [← hi, hg.2]
                  exact hmemP _ (List.get_mem _ _ _)

/-- C8: for every successful similarity query, the results are ordered by
non-decreasing (squared) distance; with ds the reported Euclidean
distances, ds is non-decreasing, the similarity scores 1/(1+d) computed
from them (line 188) are non-increasing along the list, and every score
lies in (0, 1]. -/
theorem claim8_ranking_and_scores (km : KMeansFit) (st : RState) (scales : List ℚ)
    (pid : Int) (n : Nat) (st' : RState) (out : List (Row × ℚ)) (ds : List ℚ)
    (h : recommend_similar_players km st scales pid n = (st', .ok out))
    (hds : ReportedDists out ds) :
    List.Chain' (fun a b : Row × ℚ => a.2 ≤ b.2) out ∧
    List.Chain' (· ≤ ·) ds ∧
    List.Chain' (fun a b => b ≤ a) (scoresOf ds) ∧
    ∀ s ∈ scoresOf ds, 0 < s ∧ s ≤ 1 := by
  rcases recommend_ok_sorted h with ⟨hpair, hnn⟩
  rcases List.forall₂_iff_get.mp hds with ⟨hlen, hget⟩
  have hdnn : ∀ i (hi : i < ds.length), 0 ≤ ds.get ⟨i, hi⟩ := by
    intro i hi
    exact (hget i hi (by omega)).1
  have hchain : List.Chain' (· ≤ ·) ds := by
    rw [List.chain'_iff_get]
    intro i hi
    have h1 := hget i (by omega) (by omega)
    have h2 := hget (i + 1) (by omega) (by omega)
    have hsq : (out.get ⟨i, by omega⟩).2 ≤ (out.get ⟨i + 1, by omega⟩).2 := by
      have := List.pairwise_iff_get.mp hpair ⟨i, by omega⟩ ⟨i + 1, by omega⟩ (by simp)
      exact this
    refine le_of_sq_le_sq (hdnn (i + 1) (by omega)) ?_
    rw [h1.2, h2.2]
    exact hsq
  refine ⟨?_, hchain, ?_, ?_⟩
  · rw [List.chain'_iff_get]
    intro i hi
    have h1 := hget i (by omega) (by omega)
    have h2 := hget (i + 1) (by omega) (by omega)
    rw [← h1.2, ← h2.2]
    have hcc := List.chain'_iff_get.mp hchain i (by omega)
    have hb := hdnn (i + 1) (by omega)
    nlinarith [hcc, hb]
  · rw [scoresOf, List.chain'_map, List.chain'_iff_get]
    intro i hi
    have ha := hdnn i (by omega)
    have hab := List.chain'_iff_get.mp hchain i (by omega)
    have hpos : (0 : ℚ) < 1 + ds.get ⟨i, by omega⟩ := by linarith
    exact one_div_le_one_div_of_le hpos (by linarith)
  · intro s hs
    simp only [scoresOf, List.mem_map] at hs
    rcases hs with ⟨d, hd, hsd⟩
    rcases List.mem_iff_get.mp hd with ⟨i, hi⟩
    have hdpos : (0 : ℚ) ≤ d := by rw [← hi]; exact hdnn i i.isLt
    have h1 : (0 : ℚ) < 1 + d := by linarith
    subst hsd
    constructor
    · positivity
    · rw [div_le_one h1]
      linarith

theorem colMeans_dfClose :
    colMeans (featMatrix dfClose) (featCols dfClose).length = [1, 0, 0, 0, 0] := by
  have hfm : featMatrix dfClose = [[0, 0, 0, 0, 0], [2, 0, 0, 0, 0]] := by decide
  have hfc : featCols dfClose = fiveCols := by decide
  rw [hfm, hfc]
  have hr : List.range fiveCols.length = [0, 1, 2, 3, 4] := by decide
  norm_num [colMeans, hr, colAt, qmean]

theorem stdMatrix_dfClose :
    stdMatrix dfClose onesFive = [[-1, 0, 0, 0, 0], [1, 0, 0, 0, 0]] := by
  have hfm : featMatrix dfClose = [[0, 0, 0, 0, 0], [2, 0, 0, 0, 0]] := by decide
  rw [stdMatrix, colMeans_dfClose, hfm]
  norm_num [stdRow, List.zipWith3, onesFive]

theorem train_dfClose :
    train_models kmZ (set_data initState dfClose) onesFive = (stTrainedClose, .ok ()) := by
  have hpre := preprocess_eval (set_data initState dfClose) dfClose onesFive rfl
    (by simp [dfClose]) (by decide)
  rw [stTrainedClose]
  simp only [train_models, hpre]

theorem simQuery_dfClose :
    simQuery dfClose onesFive 1 1 = .ok [(⟨2, "B", [2, 0, 0, 0, 0]⟩, 4)] := by
  have hfi : firstIdxOf dfClose.rows 1 = some 0 := by decide
  simp only [simQuery, hfi, stdMatrix_dfClose]
  norm_num [kneighborsSq, distPairs, sqd, pairLE, List.insertionSort,
    List.orderedInsert, attachRows, dfClose]

/-- Closed witness for C8 at the concrete dfClose query: one result at
distance 2, score 1/3. -/
theorem claim8_ranking_and_scores_witness :
    recommend_similar_players kmZ stTrainedClose onesFive 1 1 =
      (stTrainedClose, .ok [(⟨2, "B", [2, 0, 0, 0, 0]⟩, 4)]) ∧
    ReportedDists [(⟨2, "B", [2, 0, 0, 0, 0]⟩, 4)] [2] ∧
    List.Chain' (· ≤ ·) [(2 : ℚ)] ∧
    (∀ s ∈ scoresOf [(2 : ℚ)], 0 < s ∧ s ≤ 1) := by
  have hq := query_stable kmZ (set_data initState dfClose) stTrainedClose onesFive dfClose 1 1
    rfl train_dfClose
  rw [simQuery_dfClose] at hq
  have hrd : ReportedDists [(⟨2, "B", [2, 0, 0, 0, 0]⟩, 4)] [2] := by
    norm_num [ReportedDists, List.forall₂_cons]
  have h := claim8_ranking_and_scores kmZ stTrainedClose onesFive 1 1 stTrainedClose _ [2] hq hrd
  exact ⟨hq, hrd, h.2.1, h.2.2.2⟩

/-! ### Claim C2: fit-time state versus the query-time refit -/

theorem stdMatrix_dfB :
    stdMatrix dfB onesFive = [[0, -1, -1, -1, -1], [0, 1, 1, 1, 1]] := by
  have hfm : featMatrix dfB = [[0, 0, 0, 0, 0], [0, 2, 2, 2, 2]] := by decide
  have hfc : featCols dfB = fiveCols := by decide
  have hr : List.range fiveCols.length = [0, 1, 2, 3, 4] := by decide
  rw [stdMatrix, hfc, hfm]
  norm_num [colMeans, hr, colAt, qmean, stdRow, List.zipWith3, onesFive]

theorem validScales_dfFit : ValidScales dfFit onesFive := by
  have hfm : featMatrix dfFit = [[0, 0, 0, 0, 0], [2, 2, 2, 2, 2]] := by decide
  have hfc : featCols dfFit = fiveCols := by decide
  have hr : List.range fiveCols.length = [0, 1, 2, 3, 4] := by decide
  rw [ValidScales, hfm, hfc]
  norm_num [ScaleSpec, colVars, hr, colAt, qvar, qmean, onesFive, List.forall₂_cons]

theorem validScales_dfB : ValidScales dfB onesFive := by
  have hfm : featMatrix dfB = [[0, 0, 0, 0, 0], [0, 2, 2, 2, 2]] := by decide
  have hfc : featCols dfB = fiveCols := by decide
  have hr : List.range fiveCols.length = [0, 1, 2, 3, 4] := by decide
  rw [ValidScales, hfm, hfc]
  norm_num [ScaleSpec, colVars, hr, colAt, qvar, qmean, onesFive, List.forall₂_cons]

theorem queryVectorUsed_dfB :
    queryVectorUsed (set_data stTrained dfB) onesFive 1 = some [0, -1, -1, -1, -1] := by
  have hpre := preprocess_eval (set_data stTrained dfB) dfB onesFive rfl
    (by simp [dfB]) (by decide)
  have hfi : firstIdxOf dfB.rows 1 = some 0 := by decide
  have hpd : (set_data stTrained dfB).players_df = some dfB := rfl
  simp only [queryVectorUsed, hpd, hfi, hpre, stdMatrix_dfB]
  rfl

theorem specQueryVector_dfB :
    specQueryVector (set_data stTrained dfB) 1 = some [-1, -1, -1, -1, -1] := by
  have hfi : firstIdxOf dfB.rows 1 = some 0 := by decide
  have hpd : (set_data stTrained dfB).players_df = some dfB := rfl
  have hsc : (set_data stTrained dfB).scaler = some ⟨[1, 1, 1, 1, 1], onesFive⟩ := by
    rw [show (set_data stTrained dfB).scaler = stTrained.scaler from rfl, stTrained_eval]
  have hrow : dfB.rows[0]? = some ⟨1, "A", [0, 0, 0, 0, 0]⟩ := by decide
  have hfv : (featCols dfB).map (colVal dfB ⟨1, "A", [0, 0, 0, 0, 0]⟩) =
      [0, 0, 0, 0, 0] := by decide
  simp only [specQueryVector, hpd, hsc, hfi, hrow, hfv]
  norm_num [stdRow, List.zipWith3, onesFive]

/-- C2 as stated is false on the code: the query path refits the
preprocessing pipeline on the current table (lines 170-171), so after the
fitted table is replaced, the standardized query vector actually used
differs from the transform of the reference row under the fit-time
StandardizationState.  Concretely: train on dfFit (fitted means all 1),
load dfB, query player 1; the vector used is [0,-1,-1,-1,-1] (refit on
dfB) while the fit-time state transforms the row to [-1,-1,-1,-1,-1].
The supplied scales are the genuine fitted ones for both tables. -/
theorem claim2_counterexample :
    ValidScales dfFit onesFive ∧ ValidScales dfB onesFive ∧
    queryVectorUsed (set_data stTrained dfB) onesFive 1 = some [0, -1, -1, -1, -1] ∧
    specQueryVector (set_data stTrained dfB) 1 = some [-1, -1, -1, -1, -1] ∧
    (some [0, -1, -1, -1, -1] : Option (List ℚ)) ≠ some [-1, -1, -1, -1, -1] := by
  refine ⟨validScales_dfFit, validScales_dfB, queryVectorUsed_dfB, specQueryVector_dfB, ?_⟩
  intro h
  exact absurd (Option.some.inj h) (by norm_num)

/-- C2 amended: the query path does refit the pipeline on the current
table; when the table is unchanged since the fit and the scales supplied
at fit and query time are the fitted ones for it, the refit reproduces
the stored StandardizationState, and the query vector used equals the
spec's transform of the reference row under the fit-time state. -/
theorem claim2_query_vector_amended (km : KMeansFit) (st0 st1 : RState)
    (scalesT scalesQ : List ℚ) (df : Table) (pid : Int)
    (hdf : st0.players_df = some df)
    (htr : train_models km st0 scalesT = (st1, .ok ()))
    (hvT : ValidScales df scalesT) (hvQ : ValidScales df scalesQ) :
    queryVectorUsed st1 scalesQ pid = specQueryVector st1 pid := by
  obtain rfl : scalesT = scalesQ := ScaleSpec_unique hvT hvQ
  have hpre := preprocess_refit_stable km st0 st1 scalesT df hdf htr
  rcases train_ok htr with ⟨df0, hdf0, hne, hfeat, hknn, hfc, hsc, hpdf⟩
  rw [hdf] at hdf0
  obtain rfl : df = df0 := Option.some.inj hdf0
  simp only [queryVectorUsed, specQueryVector, hpdf, hsc, hpre]
  cases hfi : firstIdxOf df.rows pid with
  | none => rfl
  | some idx =>
    dsimp only
    rcases findIdx?_spec hfi with ⟨k, r, hk, hget, hp⟩
    obtain rfl : idx = k := by omega
    have hrow : df.rows[idx]? = some r := hget
    have hXi : (stdMatrix df scalesT)[idx]? =
        some (stdRow ⟨colMeans (featMatrix df) (featCols df).length, scalesT⟩
          ((featCols df).map (colVal df r))) := by
      rw [stdMatrix, List.getElem?_map, featMatrix, List.getElem?_map, hrow]
      rfl
    rw [hXi, hrow]
    rfl

/-- Closed witness for the amended C2: on the untouched trained state the
query vector used equals the fit-time transform, both [-1,-1,-1,-1,-1]. -/
theorem claim2_query_vector_amended_witness :
    queryVectorUsed stTrained onesFive 1 = specQueryVector stTrained 1 ∧
    queryVectorUsed stTrained onesFive 1 = some [-1, -1, -1, -1, -1] := by
  constructor
  · exact claim2_query_vector_amended kmZ (set_data initState dfFit) stTrained
      onesFive onesFive dfFit 1 rfl train_dfFit validScales_dfFit validScales_dfFit
  · have hpre := preprocess_refit_stable kmZ (set_data initState dfFit) stTrained
      onesFive dfFit rfl train_dfFit
    have hpdf : stTrained.players_df = some { dfFit with clusters := some [0, 0] } := by
      rw [stTrained_eval]
    have hfi : firstIdxOf dfFit.rows 1 = some 0 := by decide
    simp only [queryVectorUsed, hpdf, hfi, hpre, stdMatrix_dfFit]
    rfl

/-! ### Claim C1: exclusion of the reference player from the results -/

theorem mem_of_forall₂ {α β : Type} {R : α → β → Prop} {l₁ : List α} {l₂ : List β}
    (h : List.Forall₂ R l₁ l₂) {a : α} (ha : a ∈ l₁) : ∃ b ∈ l₂, R a b := by
  induction h with
  | nil => simp at ha
  | cons hR htail ih =>
    rcases List.mem_cons.mp ha with rfl | hmem
    · exact ⟨_, List.mem_cons_self _ _, hR⟩
    · rcases ih hmem with ⟨b, hb, hRb⟩
      exact ⟨b, List.mem_cons_of_mem _ hb, hRb⟩

theorem colMeans_dfDup :
    colMeans (featMatrix dfDup) (featCols dfDup).length = [1, 1, 1, 1, 1] := by
  have hfm : featMatrix dfDup = [[0, 0, 0, 0, 0], [2, 2, 2, 2, 2]] := by decide
  have hfc : featCols dfDup = fiveCols := by decide
  rw [hfm, hfc]
  have hr : List.range fiveCols.length = [0, 1, 2, 3, 4] := by decide
  norm_num [colMeans, hr, colAt, qmean]

theorem stdMatrix_dfDup :
    stdMatrix dfDup onesFive = [[-1, -1, -1, -1, -1], [1, 1, 1, 1, 1]] := by
  have hfm : featMatrix dfDup = [[0, 0, 0, 0, 0], [2, 2, 2, 2, 2]] := by decide
  rw [stdMatrix, colMeans_dfDup, hfm]
  norm_num [stdRow, List.zipWith3, onesFive]

theorem train_dfDup :
    train_models kmZ (set_data initState dfDup) onesFive = (stTrainedDup, .ok ()) := by
  have hpre := preprocess_eval (set_data initState dfDup) dfDup onesFive rfl
    (by simp [dfDup]) (by decide)
  rw [stTrainedDup]
  simp only [train_models, hpre]

theorem simQuery_dfDup :
    simQuery dfDup onesFive 1 1 = .ok [(⟨1, "B", [2, 2, 2, 2, 2]⟩, 20)] := by
  have hfi : firstIdxOf dfDup.rows 1 = some 0 := by decide
  simp only [simQuery, hfi, stdMatrix_dfDup]
  norm_num [kneighborsSq, distPairs, sqd, pairLE, List.insertionSort,
    List.orderedInsert, attachRows, dfDup]

/-- C1 as stated is false on the code: when the table holds two stint rows
for the same player_id, the query drops only the first k-NN result and
returns the player's other stint row, whose player_id equals the
reference.  Concretely, on dfDup a query for player 1 returns a row with
player_id 1. -/
theorem claim1_counterexample :
    recommend_similar_players kmZ stTrainedDup onesFive 1 1 =
      (stTrainedDup, .ok [(⟨1, "B", [2, 2, 2, 2, 2]⟩, 20)]) ∧
    (⟨1, "B", [2, 2, 2, 2, 2]⟩ : Row).pid = 1 := by
  have hq := query_stable kmZ (set_data initState dfDup) stTrainedDup onesFive dfDup 1 1
    rfl train_dfDup
  rw [simQuery_dfDup] at hq
  exact ⟨hq, rfl⟩

/-- C1 amended: a similarity query never returns a row carrying the
reference player_id PROVIDED the reference player_id occurs in exactly
one table row and no other row's standardized feature vector coincides
with the reference row's (and the state is the stable one a fit left
behind).  Without the provisos the property fails: a second stint row
with the same player_id (see claim1_counterexample) or a duplicate
feature vector can survive the drop-first-result policy of line 183. -/
theorem claim1_self_exclusion_amended (km : KMeansFit) (st0 st1 stq : RState)
    (scalesT scalesQ : List ℚ) (df : Table) (pid : Int) (n : Nat)
    (iref : Nat) (out : List (Row × ℚ))
    (hdf : st0.players_df = some df)
    (htr : train_models km st0 scalesT = (st1, .ok ()))
    (hvT : ValidScales df scalesT) (hvQ : ValidScales df scalesQ)
    (hcount : df.rows.countP (fun r => r.pid == pid) = 1)
    (hfi : firstIdxOf df.rows pid = some iref)
    (hvec : ∀ j, j ≠ iref → (stdMatrix df scalesT)[j]? ≠ (stdMatrix df scalesT)[iref]?)
    (hq : recommend_similar_players km st1 scalesQ pid n = (stq, .ok out)) :
    ∀ pr ∈ out, pr.1.pid ≠ pid := by
  obtain rfl : scalesT = scalesQ := ScaleSpec_unique hvT hvQ
  have hqs := query_stable km st0 st1 scalesT df pid n hdf htr
  have hsq : simQuery df scalesT pid n = .ok out := by
    simpa using congrArg Prod.snd (hqs.symm.trans hq)
  rcases findIdx?_spec hfi with ⟨k, rref, hk, hgetr, hprd⟩
  obtain rfl : iref = k := by omega
  have hireflt : iref < df.rows.length := (List.getElem?_eq_some.mp hgetr).1
  have hMlen : (stdMatrix df scalesT).length = df.rows.length := stdMatrix_length df scalesT
  simp only [simQuery, hfi] at hsq
  cases hX : (stdMatrix df scalesT)[iref]? with
  | none => simp only [hX] at hsq; exact absurd hsq (by simp)
  | some qv =>
    simp only [hX] at hsq
    cases hkn : kneighborsSq (stdMatrix df scalesT) qv (n + 1) with
    | error u => simp only [hkn] at hsq; exact absurd hsq (by simp)
    | ok pairs =>
      simp only [hkn] at hsq
      cases hat : attachRows df pairs.tail with
      | none =>
        try simp only [List.drop_one] at hsq
        simp only [hat] at hsq
        exact absurd hsq (by simp)
      | some out2 =>
        try simp only [List.drop_one] at hsq
        simp only [hat] at hsq
        obtain rfl : out2 = out := by simpa using hsq
        rcases kneighborsSq_ok hkn with ⟨hk0, hkle, hps⟩
        have hSsort : List.Pairwise pairLE
            (List.insertionSort pairLE (distPairs qv 0 (stdMatrix df scalesT))) :=
          List.sorted_insertionSort pairLE _
        have hperm := List.perm_insertionSort pairLE (distPairs qv 0 (stdMatrix df scalesT))
        have hSlen : (List.insertionSort pairLE
            (distPairs qv 0 (stdMatrix df scalesT))).length =
            (stdMatrix df scalesT).length := by
          rw [hperm.length_eq, distPairs_length]
        have hPi : (distPairs qv 0 (stdMatrix df scalesT))[iref]? = some (iref, 0) := by
          rw [distPairs_getElem?, hX]
          simp [sqd_self]
        have hmemS : (iref, (0 : ℚ)) ∈
            List.insertionSort pairLE (distPairs qv 0 (stdMatrix df scalesT)) := by
          refine hperm.mem_iff.mpr ?_
          rcases List.getElem?_eq_some.mp hPi with ⟨hlt, hget⟩
          exact hget ▸ List.getElem_mem hlt
        cases hSc : List.insertionSort pairLE (distPairs qv 0 (stdMatrix df scalesT)) with
        | nil =>
          exfalso
          rw [hSc] at hSlen
          simp at hSlen
          omega
        | cons p0 S₂ =>
          have hhead : p0 = (iref, (0 : ℚ)) := by
            rcases List.mem_cons.mp (hSc ▸ hmemS) with h0 | hmem₂
            · exact h0.symm
            · have hle : p0.2 ≤ (0 : ℚ) := by
                have hrel := List.rel_of_sorted_cons (hSc ▸ hSsort) _ hmem₂
                simpa [pairLE] using hrel
              have hp0P : p0 ∈ distPairs qv 0 (stdMatrix df scalesT) :=
                hperm.mem_iff.mp (hSc ▸ List.mem_cons_self p0 S₂)
              rcases mem_distPairs hp0P with ⟨j, vj, hvj, hp0⟩
              simp only [Nat.zero_add] at hp0
              have hge : 0 ≤ sqd vj qv := sqd_nonneg vj qv
              have heq0 : sqd vj qv = 0 := by
                refine le_antisymm ?_ hge
                rw [hp0] at hle
                simpa using hle
              have hsl := ValidScales_length hvT
              have hvjmem : vj ∈ stdMatrix df scalesT := by
                rcases List.getElem?_eq_some.mp hvj with ⟨hlt, hget⟩
                exact hget ▸ List.getElem_mem hlt
              have hqvmem : qv ∈ stdMatrix df scalesT := by
                rcases List.getElem?_eq_some.mp hX with ⟨hlt, hget⟩
                exact hget ▸ List.getElem_mem hlt
              have hlenv : vj.length = qv.length := by
                rw [stdMatrix_row_length hsl vj hvjmem, stdMatrix_row_length hsl qv hqvmem]
              have hvq : vj = qv := sqd_eq_zero hlenv heq0
              have hj : j = iref := by
                by_contra hne
                exact hvec j hne (by rw [hvj, hvq, hX])
              rw [hp0, hj, heq0]
          have hcnt : List.countP (fun p => p.1 == iref)
              (distPairs qv 0 (stdMatrix df scalesT)) = 1 := by
            rw [countP_distPairs]
            have hc : 0 ≤ iref ∧ iref < 0 + (stdMatrix df scalesT).length := by omega
            rw [if_pos hc]
          have hcntS : List.countP (fun p => p.1 == iref) (p0 :: S₂) = 1 := by
            rw [← hSc, hperm.countP_eq, hcnt]
          rw [List.countP_cons] at hcntS
          have hp0t : (p0.1 == iref) = true := by
            rw [hhead]
            simp
          simp only [hp0t, if_true] at hcntS
          have hS₂ : List.countP (fun p => p.1 == iref) S₂ = 0 := by omega
          have hnotin : ∀ p ∈ S₂, (p : Nat × ℚ).1 ≠ iref := by
            intro p hp
            have hz := List.countP_eq_zero.mp hS₂ p hp
            simpa using hz
          have hdrop : pairs.tail = List.take n S₂ := by
            rw [hps, hSc, List.take_succ_cons, List.tail_cons]
          intro pr hpr hpid
          have hf := attachRows_spec hat
          rcases mem_of_forall₂ hf hpr with ⟨p, hpmem, hrowp, hsnd⟩
          have hpS₂ : p ∈ S₂ := (List.take_sublist n S₂).mem (hdrop ▸ hpmem)
          have hpne : p.1 ≠ iref := hnotin p hpS₂
          have hpid' : (pr.1.pid == pid) = true := by simpa using hpid
          have h2 : 2 ≤ List.countP (fun r => r.pid == pid) df.rows := by
            rcases Nat.lt_or_ge p.1 iref with hlt | hge
            · exact two_le_countP hlt hrowp hgetr hpid' hprd
            · have hlt : iref < p.1 := by omega
              exact two_le_countP hlt hgetr hrowp hprd hpid'
          rw [hcount] at h2
          omega

theorem validScales_dfClose : ValidScales dfClose onesFive := by
  have hfm : featMatrix dfClose = [[0, 0, 0, 0, 0], [2, 0, 0, 0, 0]] := by decide
  have hfc : featCols dfClose = fiveCols := by decide
  have hr : List.range fiveCols.length = [0, 1, 2, 3, 4] := by decide
  rw [ValidScales, hfm, hfc]
  norm_num [ScaleSpec, colVars, hr, colAt, qvar, qmean, onesFive, List.forall₂_cons]

/-- Closed witness for the amended C1: on dfClose (unique ids, distinct
standardized vectors) the query for player 1 returns only rows of other
players. -/
theorem claim1_self_exclusion_amended_witness :
    (⟨2, "B", [2, 0, 0, 0, 0]⟩ : Row).pid ≠ 1 ∧
    recommend_similar_players kmZ stTrainedClose onesFive 1 1 =
      (stTrainedClose, .ok [(⟨2, "B", [2, 0, 0, 0, 0]⟩, 4)]) := by
  have hq := query_stable kmZ (set_data initState dfClose) stTrainedClose onesFive dfClose 1 1
    rfl train_dfClose
  rw [simQuery_dfClose] at hq
  refine ⟨?_, hq⟩
  refine claim1_self_exclusion_amended kmZ (set_data initState dfClose) stTrainedClose
    stTrainedClose onesFive onesFive dfClose 1 1 0 _ rfl train_dfClose
    validScales_dfClose validScales_dfClose (by decide) (by decide) ?_ hq
    (⟨2, "B", [2, 0, 0, 0, 0]⟩, 4) (by simp)
  intro j hj
  rw [stdMatrix_dfClose]
  rcases j with _ | _ | j
  · exact absurd rfl hj
  · norm_num
  · simp

/-- Sanity link for the C2 statements: on any similarity query that
reaches the neighbour search with a trained model, the vector handed to
the fitted index is exactly queryVectorUsed, and the results are the rows
attached to the neighbours it returns. -/
theorem recommend_uses_queryVectorUsed (km : KMeansFit) (st : RState) (scales : List ℚ)
    (pid : Int) (n : Nat) (M : List (List ℚ)) (st' : RState) (out : List (Row × ℚ))
    (hknn : st.knn_model = some M)
    (h : recommend_similar_players km st scales pid n = (st', .ok out)) :
    ∃ q pairs df, queryVectorUsed st scales pid = some q ∧
      kneighborsSq M q (n + 1) = .ok pairs ∧
      st.players_df = some df ∧
      attachRows df pairs.tail = some out := by
  simp only [recommend_similar_players, resolveModel, hknn] at h
  cases hdf : st.players_df with
  | none => simp [hdf] at h
  | some df =>
    simp only [hdf] at h
    cases hfi : firstIdxOf df.rows pid with
    | none => simp [hfi] at h
    | some idx =>
      simp only [hfi] at h
      rcases hpre : preprocess_data st scales with ⟨st2, res⟩
      simp only [hpre] at h
      cases res with
      | error e => simp at h
      | ok Xf =>
        rcases Xf with ⟨X, feats⟩
        cases hX : X[idx]? with
        | none => simp [hX] at h
        | some q =>
          simp only [hX] at h
          cases hkn : kneighborsSq M q (n + 1) with
          | error u => simp [hkn] at h
          | ok pairs =>
            simp only [hkn] at h
            cases hat : attachRows df pairs.tail with
            | none =>
              try simp only [List.drop_one] at h
              simp [hat] at h
            | some out2 =>
              try simp only [List.drop_one] at h
              simp only [hat] at h
              obtain rfl : out2 = out := by simpa using congrArg Prod.snd h
              refine ⟨q, pairs, df, ?_, hkn, rfl, hat⟩
              simp only [queryVectorUsed, hdf, hfi, hpre, hX]

end FootballScoutPro
